import Mathlib

/-!
Verification development for the getflowing-website serverless backend.

The main subject is the multi-tenant data-sync relay `api/tenantsync.js`
(chunked package upload/download protocol) together with the usage-metered
flow generation endpoint `api/generate-flow-protected.js`.

The JavaScript handlers are shallowly embedded as pure Lean functions over an
explicit relational state (`St`): every SQL table becomes a list of rows,
`NOW()` / `CURRENT_DATE` become a logical clock carried in the state, and
database-generated ids become a `nextId` counter.  JavaScript truthiness of
optional request fields is modelled explicitly.  Hashing
(`crypto.createHash('sha256')`) and database column defaults that are not part
of the repository are abstracted into an `Env` parameter.
-/

namespace TenantSync

/-- JS truthiness of an optional string field (absent, `null` and `""` are
falsy). -/
def truthyS : Option String → Bool
  | none => false
  | some s => s ≠ ""

/-- JS truthiness of an optional numeric field (absent, `null` and `0` are
falsy); used for `total_chunks`. -/
def truthyI : Option Int → Bool
  | none => false
  | some n => n ≠ 0

/-- JS `a || b` on optional strings (used for column defaults such as
`sync_direction || 'one_way'`). -/
def orS (o : Option String) (d : String) : String :=
  match o with
  | none => d
  | some s => if s = "" then d else s

/-- JS `a || null` on an optional string. -/
def orNullS (o : Option String) : Option String :=
  match o with
  | none => none
  | some s => if s = "" then none else some s

/-- `const MAX_INLINE_SIZE = 4 * 1024 * 1024`: max inline package size. -/
def MAX_INLINE_SIZE : Nat := 4 * 1024 * 1024

/-- `const CHUNK_SIZE = 3 * 1024 * 1024`: chunk size for large packages. -/
def CHUNK_SIZE : Nat := 3 * 1024 * 1024

/-- Row of `ts_customers`.  The source also stores an `api_key_prefix`
column; it is called `api_key_start` here. -/
structure Customer where
  id : Nat
  company_name : String
  contact_email : String
  contact_name : Option String
  api_key_hash : String
  api_key_start : String
  subscription_tier : String
  subscription_status : String
  max_sync_pairs : Int
  max_flows_per_pair : Int
  bidirectional_enabled : Bool
deriving DecidableEq

/-- Row of `ts_sync_pairs`.  `status` and `flows_synced` have database
defaults that are not part of this repository, hence `Option`. -/
structure SyncPair where
  id : Nat
  customer_id : Nat
  pair_name : String
  source_tenant_id : String
  source_environment_id : String
  source_dataverse_org : Option String
  target_tenant_id : String
  target_environment_id : String
  target_dataverse_org : Option String
  sync_direction : String
  sync_frequency : String
  last_sync_at : Option Nat
  next_sync_at : Option Nat
  last_sync_status : Option String
  status : Option String
  flows_synced : Option Int
  created_at : Nat
deriving DecidableEq

/-- Row of `ts_sync_queue` (with the package columns added by
`handleSetupChunksTable`). -/
structure QueueEntry where
  id : Nat
  customer_id : Nat
  sync_pair_id : Nat
  direction : String
  manifest : String
  status : String
  package_data : Option String
  package_size_bytes : Int
  total_chunks : Int
  chunks_received : Int
  created_at : Nat
  processing_completed_at : Option Nat
deriving DecidableEq

/-- Row of `ts_package_chunks`; `UNIQUE(queue_id, chunk_index)`. -/
structure Chunk where
  queue_id : Nat
  chunk_index : Int
  chunk_data : String
  created_at : Nat
deriving DecidableEq

/-- Payload of an `ts_audit_log.details` JSON blob, one constructor per
call site of `logAudit`. -/
inductive AuditDetails where
  | registered (company : String) (tier : String)
  | pairCreated (pair_name : String)
  | uploadReceived (queue_id : Nat) (has_package : Bool) (package_size : Int)
      (flows : Int)
  | chunkedCompleted (queue_id : Nat) (total_chunks : Int) (total_size : Int)
  | conflictResolved (conflict_id : Nat) (resolution : String)
  | syncCompleted (status : String) (flows_processed flows_activated
      flows_skipped flows_failed duration_seconds : Option Int)
      (solution_name source_org target_org app_version : Option String)
deriving DecidableEq

/-- Row of `ts_audit_log`. -/
structure AuditRow where
  customer_id : Nat
  sync_pair_id : Option Nat
  action : String
  details : AuditDetails
deriving DecidableEq

/-- Row of `ts_usage_metrics`; `UNIQUE(customer_id, date)`. -/
structure UsageRow where
  customer_id : Nat
  date : Nat
  syncs_initiated : Int
  syncs_completed : Int
  syncs_failed : Int
  flows_synced : Int
  conflicts_resolved : Int
deriving DecidableEq

/-- Row of `ts_conflicts`. -/
structure Conflict where
  id : Nat
  customer_id : Nat
  sync_pair_id : Nat
  resolution : String
  resolved_at : Option Nat
  resolved_by : Option String
  created_at : Nat
deriving DecidableEq

/-- Row of `ts_version_ledger` (read-only in this API). -/
structure LedgerRow where
  customer_id : Nat
  sync_pair_id : Nat
  flow_name : String
deriving DecidableEq

/-- Row of `sync_history`. -/
structure HistoryRow where
  id : Nat
  sync_pair_id : Option Nat
  started_at : Int
  completed_at : Nat
  flows_processed : Int
  status : String
  error_message : Option String
deriving DecidableEq

/-- The database state seen by the tenantsync handler, plus a logical clock
`time` (`NOW()`), a fixed `today` (`CURRENT_DATE`) and the id generator
`nextId`. -/
structure St where
  customers : List Customer := []
  pairs : List SyncPair := []
  queue : List QueueEntry := []
  chunks : List Chunk := []
  audit : List AuditRow := []
  usage : List UsageRow := []
  conflicts : List Conflict := []
  ledger : List LedgerRow := []
  history : List HistoryRow := []
  nextId : Nat := 0
  time : Nat := 0
  today : Nat := 0
deriving DecidableEq

/-- An HTTP request to the tenantsync endpoint.  All body/query fields are
optional, mirroring destructuring of `req.body` / `req.query`.
`gen_api_key` is the oracle for `crypto.randomBytes` in `generateApiKey`;
`manifest_flows` is the oracle for `manifest.components?.flows?.length || 0`
(the manifest JSON itself is kept opaque). -/
structure Req where
  method : String := "POST"
  qaction : Option String := none
  baction : Option String := none
  api_key : Option String := none
  company_name : Option String := none
  contact_email : Option String := none
  contact_name : Option String := none
  gen_api_key : String := ""
  pair_name : Option String := none
  source_tenant_id : Option String := none
  target_tenant_id : Option String := none
  source_environment_id : Option String := none
  target_environment_id : Option String := none
  source_dataverse_org : Option String := none
  target_dataverse_org : Option String := none
  sync_direction : Option String := none
  sync_frequency : Option String := none
  sync_pair_id : Option Nat := none
  manifest : Option String := none
  manifest_flows : Int := 0
  package_base64 : Option String := none
  queue_id : Option Nat := none
  chunk_index : Option Int := none
  chunk_data : Option String := none
  total_chunks : Option Int := none
  conflict_id : Option Nat := none
  resolution : Option String := none
  sc_status : Option String := none
  error_message : Option String := none
  flows_processed : Option Int := none
  flows_activated : Option Int := none
  flows_skipped : Option Int := none
  flows_failed : Option Int := none
  duration_seconds : Option Int := none
  solution_name : Option String := none
  source_org : Option String := none
  target_org : Option String := none
  app_version : Option String := none
deriving DecidableEq

/-- JSON responses of the tenantsync handler, one constructor per response
shape. -/
inductive Resp where
  | options200
  | err (code : Nat) (msg : String)
  | errWithLimit (code : Nat) (msg : String) (limit : Int)
  | setupOk
  | registerOk (customer_id : Nat) (api_key : String)
  | statusOk (tier status_val : String) (sync_pairs : Nat)
      (syncs_today flows_today : Int) (conflicts_pending : Nat)
  | pairsOk (pairs : List SyncPair)
  | createPairOk (pair : SyncPair)
  | uploadAccepted (queue_id : Nat) (status_val : String) (has_package : Bool)
  | chunkOk (chunk_index : Int) (chunks_received : Int)
      (total_chunks : Option Int)
  | completeOk (queue_id : Nat) (total_chunks : Int) (total_size_bytes : Int)
  | downloadNone
  | downloadPkg (transfer_mode : String) (queue_id : Nat) (manifest : String)
      (package_base64 : Option String) (total_chunks : Option Int)
      (size_bytes : Option Int) (created_at : Nat)
  | chunkData (queue_id : Nat) (chunk_index : Int) (chunk_data : String)
  | conflictsOk (conflicts : List (Conflict × String))
  | resolveOk (conflict : Conflict)
  | ledgerOk (sync_pair_id : Nat) (flows : List LedgerRow) (total : Nat)
  | syncCompleteOk (history_id : Nat)
deriving DecidableEq

/-- The transfer mode reported by a download response, if any. -/
def Resp.transferMode : Resp → Option String
  | .downloadPkg m _ _ _ _ _ _ => some m
  | _ => none

/-- Environment: the SHA-256 hash (`hashApiKey`) kept abstract, plus the
database column defaults of `ts_customers` that live in the (absent) schema. -/
structure Env where
  hashKey : String → String
  defMaxSyncPairs : Int := 1
  defMaxFlowsPerPair : Int := 10
  defBidirectional : Bool := false

/-- `validateApiKey`: first customer whose stored hash matches the hash of the
presented key and whose `subscription_status` is `active` or `trial`. -/
def validateApiKey (env : Env) (st : St) (apiKey : String) : Option Customer :=
  (st.customers.filter (fun c =>
    decide (c.api_key_hash = env.hashKey apiKey ∧
      (c.subscription_status = "active" ∨ c.subscription_status = "trial")))).head?

/-- `logAudit`: append a row to `ts_audit_log`. -/
def logAudit (st : St) (cid : Nat) (spid : Option Nat) (action : String)
    (details : AuditDetails) : St :=
  { st with audit := st.audit ++ [⟨cid, spid, action, details⟩] }

/-- `INSERT INTO ts_usage_metrics ... ON CONFLICT (customer_id, date) DO
UPDATE`: upsert keyed by `(customer_id, CURRENT_DATE)`. -/
def upsertUsage (st : St) (cid : Nat) (init : UsageRow)
    (f : UsageRow → UsageRow) : St :=
  if st.usage.any (fun u => decide (u.customer_id = cid ∧ u.date = st.today)) then
    { st with usage := st.usage.map (fun u =>
        if u.customer_id = cid ∧ u.date = st.today then f u else u) }
  else
    { st with usage := st.usage ++ [init] }

/-- All chunk rows stored for a queue entry. -/
def chunksFor (chunks : List Chunk) (qid : Nat) : List Chunk :=
  chunks.filter (fun ch => decide (ch.queue_id = qid))

/-- The `(queue_id, chunk_index)` key test of `ts_package_chunks`. -/
def chunkKeyB (qid : Nat) (idx : Int) : Chunk → Bool :=
  fun ch => decide (ch.queue_id = qid ∧ ch.chunk_index = idx)

/-- The `WHERE id = ... AND customer_id = ...` test on `ts_sync_queue`. -/
def entKeyB (qid cid : Nat) : QueueEntry → Bool :=
  fun e => decide (e.id = qid ∧ e.customer_id = cid)

/-- The `DO UPDATE SET chunk_data = ...` row transformer: overwrite the data
of the row with the conflicting key. -/
def chunkOverwrite (qid : Nat) (idx : Int) (data : String) (ch : Chunk) :
    Chunk :=
  if chunkKeyB qid idx ch then { ch with chunk_data := data } else ch

/-- `INSERT INTO ts_package_chunks ... ON CONFLICT (queue_id, chunk_index) DO
UPDATE SET chunk_data = ...`: upsert keyed by `(queue_id, chunk_index)`. -/
def upsertChunk (chunks : List Chunk) (qid : Nat) (idx : Int) (data : String)
    (now : Nat) : List Chunk :=
  if chunks.any (chunkKeyB qid idx) then
    chunks.map (chunkOverwrite qid idx data)
  else
    chunks ++ [⟨qid, idx, data, now⟩]

/-- The `UPDATE ts_sync_queue SET total_chunks = ..., status = 'processing'
WHERE id = ...` row transformer of `handleUploadChunk`. -/
def tcUpd (qid : Nat) (tc : Int) (e : QueueEntry) : QueueEntry :=
  if e.id = qid then { e with total_chunks := tc, status := "processing" }
  else e

/-- The `UPDATE ts_sync_queue SET chunks_received = ... WHERE id = ...` row
transformer of `handleUploadChunk`. -/
def recvUpd (qid : Nat) (cnt : Int) (e : QueueEntry) : QueueEntry :=
  if e.id = qid then { e with chunks_received := cnt } else e

/-- The `UPDATE ts_sync_queue SET status = 'completed', ... WHERE id = ...`
row transformer of `handleUploadComplete`. -/
def completeUpd (qid : Nat) (cnt size : Int) (now : Nat) (e : QueueEntry) :
    QueueEntry :=
  if e.id = qid then
    { e with status := "completed", total_chunks := cnt,
             chunks_received := cnt, package_size_bytes := size,
             processing_completed_at := some now }
  else e

/-- `handleUpload` (`action=upload`): create a queue entry; an accompanying
`package_base64` is stored inline and completes the entry immediately,
otherwise the entry is created `pending`. -/
def handleUpload (c : Customer) (st : St) (r : Req) : Resp × St :=
  if r.method ≠ "POST" then (.err 405 "POST required", st)
  else if r.sync_pair_id.isNone ∨ r.manifest.isNone then
    (.err 400 "sync_pair_id and manifest required", st)
  else
    let spid := r.sync_pair_id.getD 0
    let man := r.manifest.getD ""
    if (st.pairs.filter (fun p =>
        decide (p.id = spid ∧ p.customer_id = c.id))) = [] then
      (.err 404 "Sync pair not found", st)
    else
      let hasPkg := truthyS r.package_base64
      let packageSize : Int :=
        match r.package_base64 with
        | some s => if s = "" then 0 else (s.length : Int)
        | none => 0
      let entry : QueueEntry :=
        { id := st.nextId, customer_id := c.id, sync_pair_id := spid,
          direction := "inbound", manifest := man,
          status := if hasPkg then "completed" else "pending",
          package_data := if hasPkg then r.package_base64 else none,
          package_size_bytes := packageSize,
          total_chunks := 0, chunks_received := 0,
          created_at := st.time, processing_completed_at := none }
      let st1 := { st with queue := entry :: st.queue, nextId := st.nextId + 1 }
      let st2 := upsertUsage st1 c.id
        ⟨c.id, st.today, 1, 0, 0, 0, 0⟩
        (fun u => { u with syncs_initiated := u.syncs_initiated + 1 })
      let st3 := logAudit st2 c.id (some spid) "sync_upload_received"
        (.uploadReceived st.nextId hasPkg packageSize r.manifest_flows)
      (.uploadAccepted st.nextId (if hasPkg then "completed" else "pending")
        hasPkg, st3)

/-- `handleUploadChunk` (`action=upload-chunk`): upsert one chunk row keyed by
`(queue_id, chunk_index)`; with `chunk_index === 0` and a truthy
`total_chunks`, also record the declared total and move the entry to
`processing`. -/
def handleUploadChunk (c : Customer) (st : St) (r : Req) : Resp × St :=
  if r.method ≠ "POST" then (.err 405 "POST required", st)
  else if r.queue_id.isNone ∨ r.chunk_index.isNone ∨ ¬ truthyS r.chunk_data then
    (.err 400 "queue_id, chunk_index, chunk_data required", st)
  else
    let qid := r.queue_id.getD 0
    let idx := r.chunk_index.getD 0
    let data := r.chunk_data.getD ""
    if st.queue.filter (entKeyB qid c.id) = [] then
      (.err 404 "Queue entry not found", st)
    else
      let st1 : St :=
        if truthyI r.total_chunks ∧ idx = 0 then
          { st with queue := st.queue.map (tcUpd qid (r.total_chunks.getD 0)) }
        else st
      let st2 : St := { st1 with chunks := upsertChunk st1.chunks qid idx data st.time }
      let cnt : Int := ((chunksFor st2.chunks qid).length : Int)
      let st3 : St := { st2 with queue := st2.queue.map (recvUpd qid cnt) }
      (.chunkOk idx cnt
        (if truthyI r.total_chunks then r.total_chunks else none), st3)

/-- `handleUploadComplete` (`action=upload-complete`): count the stored chunk
rows, sum their sizes, and mark the entry `completed` with those aggregates. -/
def handleUploadComplete (c : Customer) (st : St) (r : Req) : Resp × St :=
  if r.method ≠ "POST" then (.err 405 "POST required", st)
  else if r.queue_id.isNone then (.err 400 "queue_id required", st)
  else
    let qid := r.queue_id.getD 0
    match st.queue.filter (entKeyB qid c.id) with
    | [] => (.err 404 "Queue entry not found", st)
    | q0 :: _ =>
      let totalChunks : Int := ((chunksFor st.chunks qid).length : Int)
      let totalSize : Int :=
        (chunksFor st.chunks qid).foldl
          (fun a ch => a + (ch.chunk_data.length : Int)) 0
      let st1 : St :=
        { st with queue := st.queue.map (completeUpd qid totalChunks totalSize st.time) }
      let st2 := logAudit st1 c.id (some q0.sync_pair_id)
        "chunked_upload_completed"
        (.chunkedCompleted qid totalChunks totalSize)
      (.completeOk qid totalChunks totalSize, st2)

/-- The completed inbound queue entries for one customer and sync pair — the
rows scanned by `handleDownload`. -/
def completedInbound (st : St) (c : Customer) (spid : Nat) : List QueueEntry :=
  st.queue.filter (fun e =>
    decide (e.customer_id = c.id ∧ e.sync_pair_id = spid ∧
      e.direction = "inbound" ∧ e.status = "completed"))

/-- `ORDER BY created_at DESC LIMIT 1`: an entry of maximal `created_at`. -/
def latestBy : List QueueEntry → Option QueueEntry
  | [] => none
  | e :: rest =>
    match latestBy rest with
    | none => some e
    | some b => if b.created_at < e.created_at then some e else some b

/-- `handleDownload` (`action=download`): fetch the latest completed inbound
entry for the pair and classify it as `inline`, `chunked` or
`manifest_only`. -/
def handleDownload (c : Customer) (st : St) (r : Req) : Resp × St :=
  if r.sync_pair_id.isNone then (.err 400 "sync_pair_id required", st)
  else
    let spid := r.sync_pair_id.getD 0
    match latestBy (completedInbound st c spid) with
    | none => (.downloadNone, st)
    | some pkg =>
      let isChunked := 0 < pkg.total_chunks ∧ ¬ truthyS pkg.package_data
      if truthyS pkg.package_data then
        (.downloadPkg "inline" pkg.id pkg.manifest pkg.package_data none
          (some pkg.package_size_bytes) pkg.created_at, st)
      else if isChunked then
        (.downloadPkg "chunked" pkg.id pkg.manifest none
          (some pkg.total_chunks) (some pkg.package_size_bytes)
          pkg.created_at, st)
      else
        (.downloadPkg "manifest_only" pkg.id pkg.manifest none none none
          pkg.created_at, st)

/-- `handleDownloadChunk` (`action=download-chunk`): serve one stored chunk. -/
def handleDownloadChunk (c : Customer) (st : St) (r : Req) : Resp × St :=
  if r.queue_id.isNone ∨ r.chunk_index.isNone then
    (.err 400 "queue_id and chunk_index required", st)
  else
    let qid := r.queue_id.getD 0
    let idx := r.chunk_index.getD 0
    if st.queue.filter (entKeyB qid c.id) = [] then
      (.err 404 "Queue entry not found", st)
    else
      match (st.chunks.filter (chunkKeyB qid idx)).head? with
      | none => (.err 404 "Chunk not found", st)
      | some ch => (.chunkData qid idx ch.chunk_data, st)

/-- Insert into a list sorted by `le` (used to model `ORDER BY`). -/
def insertSorted (le : α → α → Bool) (a : α) : List α → List α
  | [] => [a]
  | b :: rest => if le a b then a :: b :: rest else b :: insertSorted le a rest

/-- Insertion sort, used to model SQL `ORDER BY` clauses. -/
def sortBy (le : α → α → Bool) (l : List α) : List α :=
  l.foldr (insertSorted le) []

/-- `handleSetupChunksTable` (`action=setup-chunks-table`): DDL only; with the
schema modelled as already present the state is unchanged. -/
def handleSetupChunksTable (st : St) (r : Req) : Resp × St :=
  if r.method ≠ "POST" then (.err 405 "POST required", st)
  else (.setupOk, st)

/-- `handleRegister` (`action=register`): create a customer with tier
`starter`, status `trial` and a freshly generated API key (the random key is
the `gen_api_key` oracle of the request). -/
def handleRegister (env : Env) (st : St) (r : Req) : Resp × St :=
  if r.method ≠ "POST" then (.err 405 "POST required", st)
  else if ¬ truthyS r.company_name ∨ ¬ truthyS r.contact_email then
    (.err 400 "company_name and contact_email required", st)
  else if (st.customers.filter (fun c =>
      decide (c.contact_email = r.contact_email.getD ""))) ≠ [] then
    (.err 409 "Email already registered", st)
  else
    let apiKey := r.gen_api_key
    let cust : Customer :=
      { id := st.nextId, company_name := r.company_name.getD "",
        contact_email := r.contact_email.getD "",
        contact_name := orNullS r.contact_name,
        api_key_hash := env.hashKey apiKey,
        api_key_start := apiKey.take 12,
        subscription_tier := "starter", subscription_status := "trial",
        max_sync_pairs := env.defMaxSyncPairs,
        max_flows_per_pair := env.defMaxFlowsPerPair,
        bidirectional_enabled := env.defBidirectional }
    let st1 := { st with customers := st.customers ++ [cust],
                         nextId := st.nextId + 1 }
    let st2 := logAudit st1 st.nextId none "customer_registered"
      (.registered (r.company_name.getD "") "starter")
    (.registerOk st.nextId apiKey, st2)

/-- `handleStatus` (`action=status`): read-only usage summary. -/
def handleStatus (c : Customer) (st : St) (_r : Req) : Resp × St :=
  let pairsCount := (st.pairs.filter (fun p => decide (p.customer_id = c.id))).length
  let usageRow := (st.usage.filter (fun u =>
    decide (u.customer_id = c.id ∧ u.date = st.today))).head?
  let conflictsCount := (st.conflicts.filter (fun k =>
    decide (k.customer_id = c.id ∧ k.resolution = "unresolved"))).length
  (.statusOk c.subscription_tier c.subscription_status pairsCount
    ((usageRow.map (fun u => u.syncs_initiated)).getD 0)
    ((usageRow.map (fun u => u.flows_synced)).getD 0)
    conflictsCount, st)

/-- `handlePairs` (`action=pairs`): read-only list of the customer's sync
pairs, newest first. -/
def handlePairs (c : Customer) (st : St) (_r : Req) : Resp × St :=
  (.pairsOk (sortBy (fun a b => b.created_at ≤ a.created_at)
    (st.pairs.filter (fun p => decide (p.customer_id = c.id)))), st)

/-- `handleCreatePair` (`action=create-pair`): create a sync pair, enforcing
the pair-count limit and the bidirectional gate. -/
def handleCreatePair (c : Customer) (st : St) (r : Req) : Resp × St :=
  if r.method ≠ "POST" then (.err 405 "POST required", st)
  else if ¬ truthyS r.pair_name ∨ ¬ truthyS r.source_tenant_id ∨
      ¬ truthyS r.target_tenant_id then
    (.err 400 "pair_name, source_tenant_id, target_tenant_id required", st)
  else if c.max_sync_pairs ≤
      ((st.pairs.filter (fun p => decide (p.customer_id = c.id))).length : Int) then
    (.errWithLimit 403 "Sync pair limit reached" c.max_sync_pairs, st)
  else if r.sync_direction = some "bidirectional" ∧ ¬ c.bidirectional_enabled then
    (.err 403 "Bidirectional sync requires Enterprise tier", st)
  else
    let pair : SyncPair :=
      { id := st.nextId, customer_id := c.id,
        pair_name := r.pair_name.getD "",
        source_tenant_id := r.source_tenant_id.getD "",
        source_environment_id := orS r.source_environment_id
          ("Default-" ++ r.source_tenant_id.getD ""),
        source_dataverse_org := orNullS r.source_dataverse_org,
        target_tenant_id := r.target_tenant_id.getD "",
        target_environment_id := orS r.target_environment_id
          ("Default-" ++ r.target_tenant_id.getD ""),
        target_dataverse_org := orNullS r.target_dataverse_org,
        sync_direction := orS r.sync_direction "one_way",
        sync_frequency := orS r.sync_frequency "manual",
        last_sync_at := none, next_sync_at := none, last_sync_status := none,
        status := none, flows_synced := none, created_at := st.time }
    let st1 := { st with pairs := st.pairs ++ [pair], nextId := st.nextId + 1 }
    let st2 := logAudit st1 c.id (some st.nextId) "sync_pair_created"
      (.pairCreated (r.pair_name.getD ""))
    (.createPairOk pair, st2)

/-- `handleConflicts` (`action=conflicts`): unresolved conflicts joined to
their pair name, newest first. -/
def handleConflicts (c : Customer) (st : St) (_r : Req) : Resp × St :=
  let rows := (st.conflicts.filter (fun k =>
    decide (k.customer_id = c.id ∧ k.resolution = "unresolved"))).filterMap
      (fun k => ((st.pairs.filter (fun p => decide (p.id = k.sync_pair_id))).head?).map
        (fun p => (k, p.pair_name)))
  (.conflictsOk (sortBy (fun a b => b.1.created_at ≤ a.1.created_at) rows), st)

/-- `handleResolve` (`action=resolve`): record a conflict resolution. -/
def handleResolve (c : Customer) (st : St) (r : Req) : Resp × St :=
  if r.method ≠ "POST" then (.err 405 "POST required", st)
  else if r.conflict_id.isNone ∨ ¬ truthyS r.resolution then
    (.err 400 "conflict_id and resolution required", st)
  else if ¬ (r.resolution = some "keep_a" ∨ r.resolution = some "keep_b" ∨
      r.resolution = some "merge" ∨ r.resolution = some "skip") then
    (.err 400 "Invalid resolution", st)
  else
    let cid := r.conflict_id.getD 0
    let res := r.resolution.getD ""
    match (st.conflicts.filter (fun k =>
        decide (k.id = cid ∧ k.customer_id = c.id))) with
    | [] => (.err 404 "Conflict not found", st)
    | k0 :: _ =>
      let upd : Conflict :=
        { k0 with resolution := res, resolved_at := some st.time,
                  resolved_by := some c.company_name }
      let st1 := { st with conflicts := st.conflicts.map (fun k =>
          if k.id = cid ∧ k.customer_id = c.id then
            { k with resolution := res, resolved_at := some st.time,
                     resolved_by := some c.company_name }
          else k) }
      let st2 := logAudit st1 c.id (some k0.sync_pair_id) "conflict_resolved"
        (.conflictResolved cid res)
      let st3 := upsertUsage st2 c.id
        ⟨c.id, st.today, 0, 0, 0, 0, 1⟩
        (fun u => { u with conflicts_resolved := u.conflicts_resolved + 1 })
      (.resolveOk upd, st3)

/-- `handleLedger` (`action=ledger`): read-only version ledger for one pair,
sorted by flow name. -/
def handleLedger (c : Customer) (st : St) (r : Req) : Resp × St :=
  if r.sync_pair_id.isNone then (.err 400 "sync_pair_id required", st)
  else
    let spid := r.sync_pair_id.getD 0
    let rows := sortBy (fun a b => a.flow_name ≤ b.flow_name)
      (st.ledger.filter (fun v =>
        decide (v.customer_id = c.id ∧ v.sync_pair_id = spid)))
    (.ledgerOk spid rows rows.length, st)

/-- `handleSyncComplete` (`action=sync-complete`): record a desktop sync run
in `sync_history`, the pair row and the usage metrics. -/
def handleSyncComplete (c : Customer) (st : St) (r : Req) : Resp × St :=
  if r.method ≠ "POST" then (.err 405 "POST required", st)
  else if ¬ truthyS r.sc_status then
    (.err 400 "status required (success or failed)", st)
  else
    let stat := r.sc_status.getD ""
    let row : HistoryRow :=
      { id := st.nextId, sync_pair_id := r.sync_pair_id,
        started_at := (st.time : Int) - r.duration_seconds.getD 0,
        completed_at := st.time,
        flows_processed := r.flows_processed.getD 0,
        status := stat, error_message := orNullS r.error_message }
    let st1 := { st with history := st.history ++ [row],
                         nextId := st.nextId + 1 }
    let st2 :=
      match r.sync_pair_id with
      | none => st1
      | some spid =>
        { st1 with pairs := st1.pairs.map (fun p =>
            if p.id = spid ∧ p.customer_id = c.id then
              { p with last_sync_at := some st.time,
                       last_sync_status := some stat,
                       flows_synced := some (p.flows_synced.getD 0 +
                         r.flows_activated.getD 0) }
            else p) }
    let st3 :=
      if stat = "success" then
        upsertUsage st2 c.id
          ⟨c.id, st.today, 0, 1, 0, r.flows_activated.getD 0, 0⟩
          (fun u => { u with syncs_completed := u.syncs_completed + 1,
                             flows_synced := u.flows_synced +
                               r.flows_activated.getD 0 })
      else
        upsertUsage st2 c.id
          ⟨c.id, st.today, 0, 0, 1, 0, 0⟩
          (fun u => { u with syncs_failed := u.syncs_failed + 1 })
    let st4 := logAudit st3 c.id r.sync_pair_id "sync_completed"
      (.syncCompleted stat r.flows_processed r.flows_activated r.flows_skipped
        r.flows_failed r.duration_seconds r.solution_name r.source_org
        r.target_org r.app_version)
    (.syncCompleteOk st.nextId, st4)

/-- `req.query.action || req.body?.action`. -/
def resolvedAction (r : Req) : Option String :=
  if truthyS r.qaction then r.qaction else r.baction

/-- The top-level tenantsync `handler`: CORS short-circuit, `register` and
`setup-chunks-table` without auth, then API-key validation before the action
switch. -/
def handler (env : Env) (st : St) (r : Req) : Resp × St :=
  if r.method = "OPTIONS" then (.options200, st)
  else
    let action := resolvedAction r
    if action = some "register" then handleRegister env st r
    else if action = some "setup-chunks-table" then handleSetupChunksTable st r
    else if ¬ truthyS r.api_key then (.err 401 "API key required", st)
    else
      match validateApiKey env st (r.api_key.getD "") with
      | none => (.err 401 "Invalid API key", st)
      | some c =>
        if action = some "status" then handleStatus c st r
        else if action = some "pairs" then handlePairs c st r
        else if action = some "create-pair" then handleCreatePair c st r
        else if action = some "upload" then handleUpload c st r
        else if action = some "upload-chunk" then handleUploadChunk c st r
        else if action = some "upload-complete" then handleUploadComplete c st r
        else if action = some "download" then handleDownload c st r
        else if action = some "download-chunk" then handleDownloadChunk c st r
        else if action = some "conflicts" then handleConflicts c st r
        else if action = some "resolve" then handleResolve c st r
        else if action = some "ledger" then handleLedger c st r
        else if action = some "sync-complete" then handleSyncComplete c st r
        else (.err 400 "Unknown action", st)

/-! ### Operation sequences on the sync queue

The three package-transfer operations of one authenticated customer, applied
in sequence.  The logical clock advances between operations so that
`created_at` / `NOW()` values of distinct requests differ. -/

/-- One package-transfer API call. -/
inductive Op where
  | upload (r : Req)
  | uploadChunk (r : Req)
  | uploadComplete (r : Req)
deriving DecidableEq

/-- Dispatch one operation for a fixed authenticated customer. -/
def applyOp (c : Customer) (st : St) : Op → Resp × St
  | .upload r => handleUpload c st r
  | .uploadChunk r => handleUploadChunk c st r
  | .uploadComplete r => handleUploadComplete c st r

/-- Apply one operation and advance the clock. -/
def stepSt (c : Customer) (st : St) (op : Op) : St :=
  let st1 := (applyOp c st op).2
  { st1 with time := st1.time + 1 }

/-- Apply a sequence of operations. -/
def runOps (c : Customer) (st : St) (ops : List Op) : St :=
  ops.foldl (stepSt c) st

/-- Rank of the queue-entry lifecycle statuses along
`pending` → `processing` → `completed`. -/
def statusRank (s : String) : Nat :=
  if s = "pending" then 0
  else if s = "processing" then 1
  else if s = "completed" then 2
  else 0

/-- The "has chunks" representation of a queue entry: stored chunk rows or a
positive `total_chunks`. -/
def hasChunkInfo (st : St) (e : QueueEntry) : Prop :=
  (∃ ch ∈ st.chunks, ch.queue_id = e.id) ∨ 0 < e.total_chunks

instance (st : St) (e : QueueEntry) : Decidable (hasChunkInfo st e) := by
  unfold hasChunkInfo; infer_instance

/-- At-most-one package representation for every completed entry. -/
def InlineChunkExclusive (st : St) : Prop :=
  ∀ e ∈ st.queue, e.status = "completed" →
    ¬(truthyS e.package_data = true ∧ hasChunkInfo st e)

instance (st : St) : Decidable (InlineChunkExclusive st) := by
  unfold InlineChunkExclusive; infer_instance

/-- Ids already issued lie strictly below the id generator. -/
def IdsBounded (st : St) : Prop :=
  (∀ e ∈ st.queue, e.id < st.nextId) ∧
  (∀ ch ∈ st.chunks, ch.queue_id < st.nextId)

instance (st : St) : Decidable (IdsBounded st) := by
  unfold IdsBounded; infer_instance

/-- Entries holding inline package data have no chunk rows and a zero
`total_chunks`. -/
def InlineClean (st : St) : Prop :=
  ∀ e ∈ st.queue, truthyS e.package_data = true →
    (∀ ch ∈ st.chunks, ch.queue_id ≠ e.id) ∧ e.total_chunks = 0

instance (st : St) : Decidable (InlineClean st) := by
  unfold InlineClean; infer_instance

/-- The chunk-upload operation does not target an entry that carries inline
package data. -/
def avoidsInline (st : St) : Op → Prop
  | .uploadChunk r =>
    ∀ e ∈ st.queue, some e.id = r.queue_id → truthyS e.package_data = false
  | _ => True

instance (st : St) (op : Op) : Decidable (avoidsInline st op) :=
  match op with
  | .upload _ => isTrue trivial
  | .uploadChunk r => inferInstanceAs (Decidable
      (∀ e ∈ st.queue, some e.id = r.queue_id → truthyS e.package_data = false))
  | .uploadComplete _ => isTrue trivial

/-- Every operation of the run respects `avoidsInline` at its point of
application. -/
def OkRun (c : Customer) : St → List Op → Prop
  | _, [] => True
  | st, op :: ops => avoidsInline st op ∧ OkRun c (stepSt c st op) ops

instance instDecOkRun (c : Customer) (st : St) (ops : List Op) :
    Decidable (OkRun c st ops) :=
  match ops with
  | [] => isTrue trivial
  | op :: rest =>
    @instDecidableAnd _ _ inferInstance (instDecOkRun c (stepSt c st op) rest)

/-- The `UNIQUE(queue_id, chunk_index)` constraint of `ts_package_chunks`. -/
def UniqueChunkKeys (chunks : List Chunk) : Prop :=
  List.Pairwise
    (fun a b => ¬(a.queue_id = b.queue_id ∧ a.chunk_index = b.chunk_index))
    chunks

instance (chunks : List Chunk) : Decidable (UniqueChunkKeys chunks) := by
  unfold UniqueChunkKeys; infer_instance

/-! ### Concrete fixtures used by witnesses and counterexamples -/

/-- A trial customer. -/
def custW : Customer :=
  { id := 0, company_name := "Acme", contact_email := "a@b",
    contact_name := none, api_key_hash := "key1", api_key_start := "key1",
    subscription_tier := "starter", subscription_status := "trial",
    max_sync_pairs := 5, max_flows_per_pair := 10,
    bidirectional_enabled := false }

/-- A customer whose subscription lapsed. -/
def custBad : Customer :=
  { custW with id := 1, contact_email := "c@d", api_key_hash := "badkey",
               subscription_status := "cancelled" }

/-- One sync pair of `custW`. -/
def pairW : SyncPair :=
  { id := 1, customer_id := 0, pair_name := "p", source_tenant_id := "s",
    source_environment_id := "se", source_dataverse_org := none,
    target_tenant_id := "t", target_environment_id := "te",
    target_dataverse_org := none, sync_direction := "one_way",
    sync_frequency := "manual", last_sync_at := none, next_sync_at := none,
    last_sync_status := none, status := none, flows_synced := none,
    created_at := 0 }

/-- Base state: one customer, one pair, empty queue. -/
def stW : St := { customers := [custW], pairs := [pairW], nextId := 2, time := 1 }

/-- State holding only the lapsed customer. -/
def stBad : St := { customers := [custBad] }

/-- Identity-hash environment for concrete runs. -/
def envT : Env := { hashKey := fun s => s }

/-- Upload with a small inline package. -/
def rUploadInline : Req :=
  { method := "POST", sync_pair_id := some 1, manifest := some "m",
    package_base64 := some "zz" }

/-- Upload with a manifest only. -/
def rUploadPending : Req :=
  { method := "POST", sync_pair_id := some 1, manifest := some "m" }

/-- Chunk upload at index 1 without a declared total. -/
def rChunk1 : Req :=
  { method := "POST", queue_id := some 2, chunk_index := some 1,
    chunk_data := some "x" }

/-- Chunk upload at index 0 declaring `total_chunks = 2`. -/
def rChunk0tc : Req :=
  { method := "POST", queue_id := some 2, chunk_index := some 0,
    chunk_data := some "x", total_chunks := some 2 }

/-- Chunk upload at the negative index `-1`. -/
def rChunkNeg : Req :=
  { method := "POST", queue_id := some 2, chunk_index := some (-1),
    chunk_data := some "d" }

/-- A blob of exactly `MAX_INLINE_SIZE` characters. -/
def bigBlob : String := String.mk (List.replicate MAX_INLINE_SIZE 'a')

/-- Upload carrying `bigBlob`, a payload at the declared inline threshold. -/
def rUploadBig : Req :=
  { method := "POST", sync_pair_id := some 1, manifest := some "m",
    package_base64 := some bigBlob }

/-- A `status` request presenting the lapsed customer's key. -/
def rStatusBad : Req :=
  { method := "GET", qaction := some "status", api_key := some "badkey" }

/-- A pending queue entry awaiting chunks. -/
def entPend : QueueEntry :=
  { id := 2, customer_id := 0, sync_pair_id := 1, direction := "inbound",
    manifest := "m", status := "pending", package_data := none,
    package_size_bytes := 0, total_chunks := 0, chunks_received := 0,
    created_at := 1, processing_completed_at := none }

/-- State where `entPend` already has two stored chunks. -/
def stC2 : St :=
  { customers := [custW], pairs := [pairW], queue := [entPend],
    chunks := [⟨2, 0, "ab", 1⟩, ⟨2, 1, "c", 1⟩], nextId := 3, time := 2 }

/-- Completion signal for queue entry 2. -/
def rComplete : Req := { method := "POST", queue_id := some 2 }

/-- A completed inline queue entry. -/
def entInline : QueueEntry :=
  { id := 2, customer_id := 0, sync_pair_id := 1, direction := "inbound",
    manifest := "m", status := "completed", package_data := some "zz",
    package_size_bytes := 2, total_chunks := 0, chunks_received := 0,
    created_at := 1, processing_completed_at := none }

/-- State holding the single completed inline entry `entInline`. -/
def stC4 : St :=
  { customers := [custW], pairs := [pairW], queue := [entInline],
    nextId := 3, time := 2 }

/-- Download request for pair 1. -/
def rDownload : Req := { method := "GET", sync_pair_id := some 1 }

/-- State where `entPend` exists and no chunks are stored yet. -/
def stC3 : St :=
  { customers := [custW], pairs := [pairW], queue := [entPend],
    nextId := 3, time := 2 }

end TenantSync

namespace GenFlow

/-!  Shallow embedding of `api/generate-flow-protected.js`.  The Claude API
call and `JSON.parse` are external effects; the fetch outcome is an oracle
carried in the request, the JSON parser is an abstract function in the
environment, and the returned `GenOut.llmCalled` flag records whether
execution reached the `fetch` call. -/

/-- Row of `users` as read by the handler. -/
structure GUser where
  id : Nat
  subscription_tier : String
  flows_generated_this_month : Int
  total_flows_generated : Int
  updated_at : Nat
deriving DecidableEq

/-- Row of `flows`. -/
structure GFlow where
  id : Nat
  user_id : Nat
  flow_name : String
  prompt : String
  generated_json : String
  tokens_used : Int
  generation_time_seconds : Int
  success : Bool
deriving DecidableEq

/-- Payload of a `usage_logs.metadata` blob. -/
inductive LogMeta where
  | flowGenerated (flowId : Nat) (tokensUsed : Int) (genTime : Int)
deriving DecidableEq

/-- Row of `usage_logs`. -/
structure GLog where
  user_id : Option Nat
  action_type : String
  meta : LogMeta
deriving DecidableEq

/-- Database state of the flow-generation endpoint. -/
structure GState where
  users : List GUser := []
  flows : List GFlow := []
  logs : List GLog := []
  nextFlowId : Nat := 0
  time : Nat := 0
deriving DecidableEq

/-- Outcome of the `fetch` to the Claude API: HTTP failure, success without a
text block, or success with the text `flowJson`. -/
inductive LlmOutcome where
  | notOk (status : Nat) (errorData : String)
  | okNoText
  | okText (flowJson : String)
deriving DecidableEq

/-- A flow-generation request.  `apiKeyConfigured` models the presence of the
`ANTHROPIC_API_KEY` environment variable, `llm` the fetch outcome and
`genTime` the measured generation time. -/
structure GReq where
  method : String := "POST"
  prompt : Option String := none
  flowName : Option String := none
  userId : Option Nat := none
  apiKeyConfigured : Bool := true
  llm : LlmOutcome := .okNoText
  genTime : Int := 0
deriving DecidableEq

/-- Environment of the endpoint: `JSON.parse`, abstract (`none` = throw). -/
structure GEnv where
  jsonParse : String → Option String

/-- Responses of the flow-generation endpoint. -/
inductive GResp where
  | optionsOk
  | err (code : Nat) (msg : String)
  | errLimit (limit : Int) (used : Int) (tier : String)
  | errClaude (status : Nat) (details : String)
  | errBadJson (raw : String)
  | genOk (flow : String) (limit used remaining tokensUsed : Int)
deriving DecidableEq

/-- Full outcome of a call: response, final state, and whether the Claude API
was invoked. -/
structure GOut where
  resp : GResp
  st : GState
  llmCalled : Bool
deriving DecidableEq

/-- Whitespace test backing the JS `String.prototype.trim` model (the common
whitespace characters; exotic Unicode spaces are out of scope). -/
def isWsChar (c : Char) : Bool :=
  c = ' ' ∨ c = '\t' ∨ c = '\n' ∨ c = '\r'

/-- JS `prompt.trim()`: strip leading and trailing whitespace.  Implemented
over the character list so that it evaluates inside the kernel. -/
def jsTrim (s : String) : String :=
  String.mk (((s.data.dropWhile isWsChar).reverse.dropWhile isWsChar).reverse)

/-- The usage-limit table `{ free: 3, pro: 50, enterprise: 999999 }` as an
own-property lookup. -/
def tierLimits (t : String) : Option Int :=
  if t = "free" then some 3
  else if t = "pro" then some 50
  else if t = "enterprise" then some 999999
  else none

/-- `limits[user.subscription_tier] || 3`. -/
def limitFor (t : String) : Int :=
  match tierLimits t with
  | some l => if l = 0 then 3 else l
  | none => 3

/-- The markdown-fence cleanup applied to the Claude response text. -/
def cleanupJson (flowJson : String) : String :=
  let s := flowJson.trim
  if s.startsWith "```json" then
    let t := s.drop 7
    let t := if t.startsWith "\n" then t.drop 1 else t
    let t := if t.endsWith "```" then t.dropRight 3 else t
    t.trim
  else if s.startsWith "```" then
    let t := s.drop 3
    let t := if t.startsWith "\n" then t.drop 1 else t
    let t := if t.endsWith "```" then t.dropRight 3 else t
    t.trim
  else s

/-- `flowName || 'Untitled Flow'`. -/
def nameOr (o : Option String) : String :=
  match o with
  | none => "Untitled Flow"
  | some s => if s = "" then "Untitled Flow" else s

/-- The `/api/generate-flow-protected` handler. -/
def handler (env : GEnv) (st : GState) (r : GReq) : GOut :=
  if r.method = "OPTIONS" then ⟨.optionsOk, st, false⟩
  else if r.method ≠ "POST" then ⟨.err 405 "Method not allowed", st, false⟩
  else
    match r.prompt with
    | none => ⟨.err 400 "Prompt is required", st, false⟩
    | some p =>
      if (jsTrim p).length = 0 then ⟨.err 400 "Prompt is required", st, false⟩
      else
        match r.userId with
        | none => ⟨.err 401 "User ID required", st, false⟩
        | some uid =>
          if uid = 0 then ⟨.err 401 "User ID required", st, false⟩
          else
            match (st.users.filter (fun u => decide (u.id = uid))).head? with
            | none => ⟨.err 404 "User not found", st, false⟩
            | some user =>
              let limit := limitFor user.subscription_tier
              let remaining := limit - user.flows_generated_this_month
              if remaining ≤ 0 then
                ⟨.errLimit limit user.flows_generated_this_month
                  user.subscription_tier, st, false⟩
              else if ¬ r.apiKeyConfigured then
                ⟨.err 500 "API key not configured", st, false⟩
              else
                match r.llm with
                | .notOk status errorData =>
                  ⟨.errClaude status errorData, st, true⟩
                | .okNoText =>
                  ⟨.err 500 "No flow JSON returned from Claude", st, true⟩
                | .okText flowJson =>
                  let cleanJson := cleanupJson flowJson
                  match env.jsonParse cleanJson with
                  | none => ⟨.errBadJson (cleanJson.take 500), st, true⟩
                  | some parsed =>
                    let tokensUsed : Int :=
                      (((p.length + flowJson.length) + 3) / 4 : Nat)
                    let flowRow : GFlow :=
                      ⟨st.nextFlowId, uid, nameOr r.flowName, p, parsed,
                        tokensUsed, r.genTime, true⟩
                    let st1 : GState := { st with flows := st.flows ++ [flowRow],
                                                  nextFlowId := st.nextFlowId + 1 }
                    let bump : GUser → GUser := fun u =>
                      { u with
                        flows_generated_this_month := u.flows_generated_this_month + 1
                        total_flows_generated := u.total_flows_generated + 1
                        updated_at := st.time }
                    let st2 : GState := { st1 with users := st1.users.map (fun u => if u.id = uid then bump u else u) }
                    let logRow : GLog :=
                      ⟨some uid, "flow_generated",
                        .flowGenerated st.nextFlowId tokensUsed r.genTime⟩
                    let st3 : GState := { st2 with logs := st2.logs ++ [logRow] }
                    ⟨.genOk parsed limit (user.flows_generated_this_month + 1)
                      (remaining - 1) tokensUsed, st3, true⟩

/-- Abstract JSON parser that always throws (enough for rejection paths). -/
def envW : GEnv := ⟨fun _ => none⟩

/-- A free-tier user who has exhausted the monthly limit. -/
def userW : GUser := ⟨7, "free", 3, 3, 0⟩

/-- State holding only `userW`. -/
def gstW : GState := { users := [userW] }

/-- A flow-generation request by `userW`. -/
def rGenW : GReq := { method := "POST", prompt := some "hi", userId := some 7 }

end GenFlow

namespace TenantSync

/-! ### Projection lemmas for the state transformers -/

@[simp] theorem logAudit_queue (st : St) (cid : Nat) (spid : Option Nat)
    (a : String) (d : AuditDetails) : (logAudit st cid spid a d).queue = st.queue := rfl

@[simp] theorem logAudit_chunks (st : St) (cid : Nat) (spid : Option Nat)
    (a : String) (d : AuditDetails) : (logAudit st cid spid a d).chunks = st.chunks := rfl

@[simp] theorem logAudit_nextId (st : St) (cid : Nat) (spid : Option Nat)
    (a : String) (d : AuditDetails) : (logAudit st cid spid a d).nextId = st.nextId := rfl

@[simp] theorem logAudit_time (st : St) (cid : Nat) (spid : Option Nat)
    (a : String) (d : AuditDetails) : (logAudit st cid spid a d).time = st.time := rfl

@[simp] theorem logAudit_pairs (st : St) (cid : Nat) (spid : Option Nat)
    (a : String) (d : AuditDetails) : (logAudit st cid spid a d).pairs = st.pairs := rfl

@[simp] theorem upsertUsage_queue (st : St) (cid : Nat) (init : UsageRow)
    (f : UsageRow → UsageRow) : (upsertUsage st cid init f).queue = st.queue := by
  unfold upsertUsage; split <;> rfl

@[simp] theorem upsertUsage_chunks (st : St) (cid : Nat) (init : UsageRow)
    (f : UsageRow → UsageRow) : (upsertUsage st cid init f).chunks = st.chunks := by
  unfold upsertUsage; split <;> rfl

@[simp] theorem upsertUsage_nextId (st : St) (cid : Nat) (init : UsageRow)
    (f : UsageRow → UsageRow) : (upsertUsage st cid init f).nextId = st.nextId := by
  unfold upsertUsage; split <;> rfl

@[simp] theorem upsertUsage_time (st : St) (cid : Nat) (init : UsageRow)
    (f : UsageRow → UsageRow) : (upsertUsage st cid init f).time = st.time := by
  unfold upsertUsage; split <;> rfl

@[simp] theorem upsertUsage_pairs (st : St) (cid : Nat) (init : UsageRow)
    (f : UsageRow → UsageRow) : (upsertUsage st cid init f).pairs = st.pairs := by
  unfold upsertUsage; split <;> rfl

/-- Success-path characterization of `handleUpload` when a non-empty package
blob is supplied: a fresh `completed` entry with the blob stored inline. -/
theorem upload_with_blob (c : Customer) (st : St) (r : Req) (spid : Nat)
    (m blob : String)
    (hm : r.method = "POST") (hs : r.sync_pair_id = some spid)
    (hman : r.manifest = some m)
    (hb : r.package_base64 = some blob) (hbne : blob ≠ "")
    (hp : st.pairs.filter
      (fun p => decide (p.id = spid ∧ p.customer_id = c.id)) ≠ []) :
    (handleUpload c st r).2.queue =
      { id := st.nextId, customer_id := c.id, sync_pair_id := spid,
        direction := "inbound", manifest := m, status := "completed",
        package_data := some blob, package_size_bytes := (blob.length : Int),
        total_chunks := 0, chunks_received := 0, created_at := st.time,
        processing_completed_at := none } :: st.queue ∧
    (handleUpload c st r).1 = .uploadAccepted st.nextId "completed" true := by
  unfold handleUpload
  rw [hs, hman, hb, hm]
  rw [if_neg (by decide : ¬("POST" ≠ "POST"))]
  rw [if_neg (by simp : ¬((some spid).isNone = true ∨ (some m).isNone = true))]
  simp only [Option.getD_some]
  rw [if_neg hp]
  simp [truthyS, hbne]

/-- Success-path characterization of `handleUpload` without a package blob:
a fresh `pending` entry carrying only the manifest. -/
theorem upload_without_blob (c : Customer) (st : St) (r : Req) (spid : Nat)
    (m : String)
    (hm : r.method = "POST") (hs : r.sync_pair_id = some spid)
    (hman : r.manifest = some m)
    (hb : r.package_base64 = none)
    (hp : st.pairs.filter
      (fun p => decide (p.id = spid ∧ p.customer_id = c.id)) ≠ []) :
    (handleUpload c st r).2.queue =
      { id := st.nextId, customer_id := c.id, sync_pair_id := spid,
        direction := "inbound", manifest := m, status := "pending",
        package_data := none, package_size_bytes := 0,
        total_chunks := 0, chunks_received := 0, created_at := st.time,
        processing_completed_at := none } :: st.queue ∧
    (handleUpload c st r).1 = .uploadAccepted st.nextId "pending" false := by
  unfold handleUpload
  rw [hs, hman, hb, hm]
  rw [if_neg (by decide : ¬("POST" ≠ "POST"))]
  rw [if_neg (by simp : ¬((some spid).isNone = true ∨ (some m).isNone = true))]
  simp only [Option.getD_some]
  rw [if_neg hp]
  simp [truthyS]

/-- C6: an upload with a (non-empty) `package_base64` below the inline
threshold, referencing an existing sync pair of the caller, stores the blob
directly on the new queue entry (`package_data` = blob, `package_size_bytes`
= its length) and sets the status to `completed` in the same call; without a
blob the entry is created `pending`. -/
theorem c6_upload_inline_small (c : Customer) (st : St) (r : Req) (spid : Nat)
    (m : String)
    (hm : r.method = "POST") (hs : r.sync_pair_id = some spid)
    (hman : r.manifest = some m)
    (hp : st.pairs.filter
      (fun p => decide (p.id = spid ∧ p.customer_id = c.id)) ≠ []) :
    (∀ blob, r.package_base64 = some blob → blob ≠ "" →
      blob.length < MAX_INLINE_SIZE →
      ∃ entry : QueueEntry,
        (handleUpload c st r).2.queue = entry :: st.queue ∧
        entry.package_data = some blob ∧
        entry.package_size_bytes = (blob.length : Int) ∧
        entry.status = "completed" ∧
        (handleUpload c st r).1 = .uploadAccepted st.nextId "completed" true) ∧
    (r.package_base64 = none →
      ∃ entry : QueueEntry,
        (handleUpload c st r).2.queue = entry :: st.queue ∧
        entry.package_data = none ∧
        entry.status = "pending" ∧
        (handleUpload c st r).1 = .uploadAccepted st.nextId "pending" false) := by
  constructor
  · intro blob hb hbne _hsize
    obtain ⟨hq, hr⟩ := upload_with_blob c st r spid m blob hm hs hman hb hbne hp
    exact ⟨_, hq, rfl, rfl, rfl, hr⟩
  · intro hb
    obtain ⟨hq, hr⟩ := upload_without_blob c st r spid m hm hs hman hb hp
    exact ⟨_, hq, rfl, rfl, hr⟩

/-- C6 witness: on the concrete state `stW`, the inline upload
`rUploadInline` is accepted as `completed`. -/
theorem c6_witness :
    (handleUpload custW stW rUploadInline).1 = .uploadAccepted 2 "completed" true := by
  obtain ⟨-, -, -, -, -, h⟩ :=
    (c6_upload_inline_small custW stW rUploadInline 1 "m" rfl rfl rfl
      (by decide)).1 "zz" rfl (by decide) (by decide)
  exact h

/-- C9: the upload handler never compares the payload against
`MAX_INLINE_SIZE`: every non-empty `package_base64`, of any length
(including lengths at or above the constant), is stored inline on the new
queue entry with status `completed`. -/
theorem c9_upload_unbounded_inline (c : Customer) (st : St) (r : Req)
    (spid : Nat) (m blob : String)
    (hm : r.method = "POST") (hs : r.sync_pair_id = some spid)
    (hman : r.manifest = some m)
    (hb : r.package_base64 = some blob) (hbne : blob ≠ "")
    (hp : st.pairs.filter
      (fun p => decide (p.id = spid ∧ p.customer_id = c.id)) ≠ []) :
    ∃ entry : QueueEntry,
      (handleUpload c st r).2.queue = entry :: st.queue ∧
      entry.package_data = some blob ∧
      entry.package_size_bytes = (blob.length : Int) ∧
      entry.status = "completed" ∧
      (handleUpload c st r).1 = .uploadAccepted st.nextId "completed" true := by
  obtain ⟨hq, hr⟩ := upload_with_blob c st r spid m blob hm hs hman hb hbne hp
  exact ⟨_, hq, rfl, rfl, rfl, hr⟩

/-- `bigBlob` has exactly `MAX_INLINE_SIZE` characters. -/
theorem bigBlob_length : bigBlob.length = MAX_INLINE_SIZE := by
  simp [bigBlob, String.length]

/-- `bigBlob` is non-empty. -/
theorem bigBlob_ne_empty : bigBlob ≠ "" := by
  intro h
  have hl := bigBlob_length
  rw [h] at hl
  exact absurd hl (by decide)

/-- C9 witness: a payload of `MAX_INLINE_SIZE` characters is still accepted
and stored inline as `completed`. -/
theorem c9_witness :
    (handleUpload custW stW rUploadBig).1 = .uploadAccepted 2 "completed" true := by
  obtain ⟨entry, -, -, -, -, h⟩ :=
    c9_upload_unbounded_inline custW stW rUploadBig 1 "m" bigBlob rfl rfl rfl
      rfl bigBlob_ne_empty (by decide)
  exact h

/-- C2: `handleUploadComplete` sets the entry's `total_chunks` and
`chunks_received` to the number of chunk rows currently stored for it, its
`package_size_bytes` to the sum of those chunks' data lengths, and its status
to `completed`; the aggregates are recomputed from the chunk rows, so any
client-declared `total_chunks` recorded earlier plays no role. -/
theorem c2_upload_complete_sets_aggregates (c : Customer) (st : St) (r : Req)
    (qid : Nat)
    (hm : r.method = "POST") (hq : r.queue_id = some qid)
    (he : st.queue.filter (entKeyB qid c.id) ≠ []) :
    (∀ e' ∈ (handleUploadComplete c st r).2.queue, e'.id = qid →
      e'.status = "completed" ∧
      e'.total_chunks = ((chunksFor st.chunks qid).length : Int) ∧
      e'.chunks_received = ((chunksFor st.chunks qid).length : Int) ∧
      e'.package_size_bytes = (chunksFor st.chunks qid).foldl
        (fun a ch => a + (ch.chunk_data.length : Int)) 0) ∧
    (handleUploadComplete c st r).1 =
      .completeOk qid ((chunksFor st.chunks qid).length : Int)
        ((chunksFor st.chunks qid).foldl
          (fun a ch => a + (ch.chunk_data.length : Int)) 0) := by
  cases hfe : st.queue.filter (entKeyB qid c.id) with
  | nil => exact absurd hfe he
  | cons q0 rest =>
    have hres : handleUploadComplete c st r =
        (.completeOk qid ((chunksFor st.chunks qid).length : Int)
          ((chunksFor st.chunks qid).foldl
            (fun a ch => a + (ch.chunk_data.length : Int)) 0),
         logAudit
           { st with queue := st.queue.map (completeUpd qid
               ((chunksFor st.chunks qid).length : Int)
               ((chunksFor st.chunks qid).foldl
                 (fun a ch => a + (ch.chunk_data.length : Int)) 0) st.time) }
           c.id (some q0.sync_pair_id) "chunked_upload_completed"
           (.chunkedCompleted qid ((chunksFor st.chunks qid).length : Int)
             ((chunksFor st.chunks qid).foldl
               (fun a ch => a + (ch.chunk_data.length : Int)) 0))) := by
      unfold handleUploadComplete
      rw [hq, hm]
      simp only [Option.isNone_some, Option.getD_some]
      rw [hfe]
      simp
    rw [hres]
    constructor
    · intro e' he' hid
      simp only [logAudit_queue] at he'
      rw [List.mem_map] at he'
      obtain ⟨e, _hmem, rfl⟩ := he'
      unfold completeUpd at hid ⊢
      by_cases h : e.id = qid
      · simp [h]
      · rw [if_neg h] at hid
        exact absurd hid h
    · rfl

/-- C2 witness: completing entry 2 of `stC2` records 2 chunks totalling 3
bytes and reports them. -/
theorem c2_witness :
    (handleUploadComplete custW stC2 rComplete).1 = .completeOk 2 2 3 := by
  exact (c2_upload_complete_sets_aggregates custW stC2 rComplete 2 rfl rfl
    (by decide)).2

/-- `latestBy` returns `none` exactly on the empty list. -/
theorem latestBy_eq_none {l : List QueueEntry} (h : latestBy l = none) :
    l = [] := by
  cases l with
  | nil => rfl
  | cons e rest =>
    unfold latestBy at h
    cases hr : latestBy rest with
    | none => rw [hr] at h; cases h
    | some b =>
      simp only [hr] at h
      by_cases hlt : b.created_at < e.created_at
      · rw [if_pos hlt] at h; cases h
      · rw [if_neg hlt] at h; cases h

/-- The entry produced by `latestBy` belongs to the list and carries a
maximal `created_at`. -/
theorem latestBy_spec {l : List QueueEntry} {p : QueueEntry}
    (h : latestBy l = some p) :
    p ∈ l ∧ ∀ x ∈ l, x.created_at ≤ p.created_at := by
  induction l generalizing p with
  | nil => cases h
  | cons e rest ih =>
    unfold latestBy at h
    cases hr : latestBy rest with
    | none =>
      simp only [hr] at h
      obtain rfl : e = p := by cases h; rfl
      have hrest := latestBy_eq_none hr
      subst hrest
      exact ⟨List.mem_cons_self _ _, by
        intro x hx
        rcases List.mem_singleton.mp hx with rfl
        exact Nat.le_refl _⟩
    | some b =>
      simp only [hr] at h
      obtain ⟨hbmem, hbmax⟩ := ih hr
      by_cases hlt : b.created_at < e.created_at
      · rw [if_pos hlt] at h
        obtain rfl : e = p := by cases h; rfl
        refine ⟨List.mem_cons_self _ _, ?_⟩
        intro x hx
        rcases List.mem_cons.mp hx with rfl | hx'
        · exact Nat.le_refl _
        · exact Nat.le_of_lt (Nat.lt_of_le_of_lt (hbmax x hx') hlt)
      · rw [if_neg hlt] at h
        obtain rfl : b = p := by cases h; rfl
        refine ⟨List.mem_cons_of_mem _ hbmem, ?_⟩
        intro x hx
        rcases List.mem_cons.mp hx with rfl | hx'
        · exact Nat.le_of_not_lt hlt
        · exact hbmax x hx'

/-- C4: `handleDownload` serves a maximal-`created_at` element of the
completed inbound entries of the pair and classifies it into exactly one of
the three transfer modes: `inline` iff it has inline data, `chunked` iff it
has no inline data and a positive `total_chunks`, `manifest_only` iff it has
neither; the state is unchanged. -/
theorem c4_download_three_modes (c : Customer) (st : St) (r : Req) (spid : Nat)
    (hs : r.sync_pair_id = some spid)
    (hne : completedInbound st c spid ≠ []) :
    ∃ pkg : QueueEntry, ∃ mode : String,
      pkg ∈ completedInbound st c spid ∧
      (∀ x ∈ completedInbound st c spid, x.created_at ≤ pkg.created_at) ∧
      (handleDownload c st r).1.transferMode = some mode ∧
      (handleDownload c st r).2 = st ∧
      (mode = "inline" ∨ mode = "chunked" ∨ mode = "manifest_only") ∧
      (mode = "inline" ↔ truthyS pkg.package_data = true) ∧
      (mode = "chunked" ↔
        (truthyS pkg.package_data = false ∧ 0 < pkg.total_chunks)) ∧
      (mode = "manifest_only" ↔
        (truthyS pkg.package_data = false ∧ ¬ 0 < pkg.total_chunks)) := by
  cases hlb : latestBy (completedInbound st c spid) with
  | none => exact absurd (latestBy_eq_none hlb) hne
  | some pkg =>
    obtain ⟨hmem, hmax⟩ := latestBy_spec hlb
    refine ⟨pkg, ?_⟩
    unfold handleDownload
    rw [hs]
    rw [if_neg (by simp : ¬((some spid).isNone = true))]
    simp only [Option.getD_some]
    simp only [hlb]
    by_cases hpd : truthyS pkg.package_data = true
    · rw [if_pos hpd]
      refine ⟨"inline", hmem, hmax, rfl, rfl, Or.inl rfl, ?_, ?_, ?_⟩
      · simp [hpd]
      · simp [hpd]
      · simp [hpd]
    · have hpd' : truthyS pkg.package_data = false := by
        revert hpd; cases truthyS pkg.package_data <;> simp
      rw [if_neg hpd]
      by_cases htc : 0 < pkg.total_chunks
      · rw [if_pos ⟨htc, hpd⟩]
        refine ⟨"chunked", hmem, hmax, rfl, rfl, Or.inr (Or.inl rfl), ?_, ?_, ?_⟩
        · simp [hpd']
        · simp [hpd', htc]
        · simp [hpd', htc]
      · rw [if_neg (fun h => htc h.1)]
        refine ⟨"manifest_only", hmem, hmax, rfl, rfl,
          Or.inr (Or.inr rfl), ?_, ?_, ?_⟩
        · simp [hpd']
        · simp [hpd', htc]
        · simp [hpd', htc]

/-- C4 witness: on `stC4` (one completed inline entry) the download reports
`inline` mode, the selected entry is the stored one, and the state is
unchanged. -/
theorem c4_witness :
    ∃ pkg : QueueEntry, ∃ mode : String,
      pkg ∈ completedInbound stC4 custW 1 ∧
      (∀ x ∈ completedInbound stC4 custW 1, x.created_at ≤ pkg.created_at) ∧
      (handleDownload custW stC4 rDownload).1.transferMode = some mode ∧
      (handleDownload custW stC4 rDownload).2 = stC4 ∧
      (mode = "inline" ∨ mode = "chunked" ∨ mode = "manifest_only") ∧
      (mode = "inline" ↔ truthyS pkg.package_data = true) ∧
      (mode = "chunked" ↔
        (truthyS pkg.package_data = false ∧ 0 < pkg.total_chunks)) ∧
      (mode = "manifest_only" ↔
        (truthyS pkg.package_data = false ∧ ¬ 0 < pkg.total_chunks)) := by
  exact c4_download_three_modes custW stC4 rDownload 1 rfl (by decide)

/-- When no customer row passes the hash-and-status test, `validateApiKey`
yields `none`. -/
theorem validateApiKey_none (env : Env) (st : St) (k : String)
    (hbad : ∀ cu ∈ st.customers, cu.api_key_hash = env.hashKey k →
      cu.subscription_status ≠ "active" ∧ cu.subscription_status ≠ "trial") :
    validateApiKey env st k = none := by
  unfold validateApiKey
  rw [List.head?_eq_none_iff, List.filter_eq_nil_iff]
  intro cu hcu
  simp only [decide_eq_true_eq]
  rintro ⟨h1, h2⟩
  obtain ⟨ha, ht⟩ := hbad cu hcu h1
  cases h2 with
  | inl h => exact ha h
  | inr h => exact ht h

/-- An authenticated route with a key that validates to `none` answers 401
`Invalid API key` and leaves the state untouched. -/
theorem handler_invalid_key (env : Env) (st : St) (r : Req)
    (hm : r.method ≠ "OPTIONS")
    (ha1 : resolvedAction r ≠ some "register")
    (ha2 : resolvedAction r ≠ some "setup-chunks-table")
    (hk : truthyS r.api_key = true)
    (hv : validateApiKey env st (r.api_key.getD "") = none) :
    handler env st r = (.err 401 "Invalid API key", st) := by
  unfold handler
  rw [if_neg hm, if_neg ha1, if_neg ha2]
  rw [hk]
  rw [if_neg (by simp : ¬¬(true = true))]
  rw [hv]

/-- C10: for any action other than `register` and `setup-chunks-table`, a key
whose hash matches only customers with a subscription status outside
`active`/`trial` is answered with 401 `Invalid API key` and no state change —
indistinguishable from a key matching no customer at all. -/
theorem c10_lapsed_key_rejected (env : Env) (st : St) (r : Req) (k : String)
    (hm : r.method ≠ "OPTIONS")
    (ha1 : resolvedAction r ≠ some "register")
    (ha2 : resolvedAction r ≠ some "setup-chunks-table")
    (hk : r.api_key = some k) (hkne : k ≠ "")
    (hbad : ∀ cu ∈ st.customers, cu.api_key_hash = env.hashKey k →
      cu.subscription_status ≠ "active" ∧ cu.subscription_status ≠ "trial") :
    handler env st r = (.err 401 "Invalid API key", st) ∧
    (∀ k2, k2 ≠ "" → (∀ cu ∈ st.customers, cu.api_key_hash ≠ env.hashKey k2) →
      handler env st { r with api_key := some k2 } =
        (.err 401 "Invalid API key", st)) := by
  constructor
  · apply handler_invalid_key env st r hm ha1 ha2
    · rw [hk]; simp [truthyS, hkne]
    · rw [hk]
      exact validateApiKey_none env st k hbad
  · intro k2 hk2ne hnomatch
    refine handler_invalid_key env st _ ?_ ?_ ?_ ?_ ?_
    · exact hm
    · exact ha1
    · exact ha2
    · simp [truthyS, hk2ne]
    · exact validateApiKey_none env st k2
        (fun cu hcu hhash => absurd hhash (hnomatch cu hcu))

/-- C10 witness: the lapsed customer's own key is turned away exactly like an
unknown key. -/
theorem c10_witness :
    handler envT stBad rStatusBad = (.err 401 "Invalid API key", stBad) := by
  exact (c10_lapsed_key_rejected envT stBad rStatusBad "badkey" (by decide)
    (by decide) (by decide) rfl (by decide) (by decide)).1

end TenantSync

namespace GenFlow

/-- C7: a flow-generation request by an existing user whose
`flows_generated_this_month` has reached the tier limit (`free` 3, `pro` 50,
`enterprise` 999999, default 3) is rejected with the 429 payload before the
Claude API is called and before any database write: the returned state is the
input state and `llmCalled` is `false`. -/
theorem c7_limit_rejected_before_llm (env : GEnv) (st : GState) (r : GReq)
    (p : String) (uid : Nat) (user : GUser)
    (hm : r.method = "POST") (hp : r.prompt = some p)
    (hpt : (jsTrim p).length ≠ 0)
    (hu : r.userId = some uid) (hu0 : uid ≠ 0)
    (hfound : (st.users.filter (fun u => decide (u.id = uid))).head? = some user)
    (hlim : limitFor user.subscription_tier ≤ user.flows_generated_this_month) :
    handler env st r =
      ⟨.errLimit (limitFor user.subscription_tier)
        user.flows_generated_this_month user.subscription_tier, st, false⟩ := by
  have hrem : limitFor user.subscription_tier -
      user.flows_generated_this_month ≤ 0 := by omega
  unfold handler
  simp [hm, hp, hpt, hu, hu0, hfound, hrem]

/-- C7 witness: `userW` (free tier, 3 of 3 used) is rejected with the 429
payload, no state change, and no Claude call. -/
theorem c7_witness :
    handler envW gstW rGenW = ⟨.errLimit 3 3 "free", gstW, false⟩ := by
  exact c7_limit_rejected_before_llm envW gstW rGenW "hi" 7 userW rfl rfl
    (by decide) rfl (by decide) rfl (by decide)

end GenFlow

namespace TenantSync

/-! ### Properties of the chunk upsert -/

/-- A function fixing every element of a list maps the list to itself. -/
theorem map_id_of_fix {α : Type} {l : List α} {f : α → α}
    (h : ∀ a ∈ l, f a = a) : l.map f = l := by
  induction l with
  | nil => rfl
  | cons a t ih =>
    rw [List.map_cons, h a (List.mem_cons_self a t),
      ih (fun b hb => h b (List.mem_cons_of_mem _ hb))]

/-- Overwriting the data leaves every key test unchanged. -/
theorem chunkKeyB_overwrite (q' : Nat) (i' : Int) (q : Nat) (i : Int)
    (d : String) (ch : Chunk) :
    chunkKeyB q' i' (chunkOverwrite q i d ch) = chunkKeyB q' i' ch := by
  unfold chunkOverwrite
  split <;> rfl

/-- Overwriting the data leaves `queue_id` unchanged. -/
theorem chunkOverwrite_queue_id (q : Nat) (i : Int) (d : String) (ch : Chunk) :
    (chunkOverwrite q i d ch).queue_id = ch.queue_id := by
  unfold chunkOverwrite; split <;> rfl

/-- Overwriting the data leaves `chunk_index` unchanged. -/
theorem chunkOverwrite_chunk_index (q : Nat) (i : Int) (d : String)
    (ch : Chunk) :
    (chunkOverwrite q i d ch).chunk_index = ch.chunk_index := by
  unfold chunkOverwrite; split <;> rfl

/-- On the conflicting row the overwrite installs the new data. -/
theorem chunkOverwrite_data_of_key {q : Nat} {i : Int} {d : String}
    {ch : Chunk} (hk : chunkKeyB q i ch = true) :
    (chunkOverwrite q i d ch).chunk_data = d := by
  unfold chunkOverwrite
  rw [if_pos hk]

/-- On a non-conflicting row the overwrite is the identity. -/
theorem chunkOverwrite_of_not_key {q : Nat} {i : Int} {d : String}
    {ch : Chunk} (hk : chunkKeyB q i ch = false) :
    chunkOverwrite q i d ch = ch := by
  unfold chunkOverwrite
  rw [hk]
  simp

/-- The overwrite is idempotent. -/
theorem chunkOverwrite_idem (q : Nat) (i : Int) (d : String) (ch : Chunk) :
    chunkOverwrite q i d (chunkOverwrite q i d ch) = chunkOverwrite q i d ch := by
  by_cases hk : chunkKeyB q i ch = true
  · unfold chunkOverwrite
    rw [if_pos hk]
    rw [if_pos (show chunkKeyB q i { ch with chunk_data := d } = true from hk)]
  · have hk' : chunkKeyB q i ch = false := by
      revert hk; cases chunkKeyB q i ch <;> simp
    rw [chunkOverwrite_of_not_key hk', chunkOverwrite_of_not_key hk']

/-- Mapping the overwrite over a list containing the key leaves exactly one
row with that key, and it holds the new data. -/
theorem filter_map_overwrite (q : Nat) (i : Int) (d : String) :
    ∀ l : List Chunk, UniqueChunkKeys l → l.any (chunkKeyB q i) = true →
      ((l.map (chunkOverwrite q i d)).filter (chunkKeyB q i)).map
        (fun ch => ch.chunk_data) = [d] := by
  intro l
  induction l with
  | nil => intro _ h; simp at h
  | cons a tl ih =>
    intro hu hany
    unfold UniqueChunkKeys at hu
    rw [List.pairwise_cons] at hu
    obtain ⟨hhead, htl⟩ := hu
    by_cases hk : chunkKeyB q i a = true
    · have htail0 : ∀ b ∈ tl, chunkKeyB q i b = false := by
        intro b hb
        have hr := hhead b hb
        unfold chunkKeyB at hk ⊢
        simp only [decide_eq_true_eq] at hk
        simp only [decide_eq_false_iff_not]
        intro hbk
        exact hr ⟨hk.1.trans hbk.1.symm, hk.2.trans hbk.2.symm⟩
      have hnil : ((tl.map (chunkOverwrite q i d)).filter (chunkKeyB q i)) = [] := by
        rw [List.filter_eq_nil_iff]
        intro b hb
        rw [List.mem_map] at hb
        obtain ⟨b0, hb0, rfl⟩ := hb
        rw [chunkKeyB_overwrite, htail0 b0 hb0]
        simp
      have hfa : chunkKeyB q i (chunkOverwrite q i d a) = true := by
        rw [chunkKeyB_overwrite]; exact hk
      rw [List.map_cons, List.filter_cons, if_pos hfa, List.map_cons, hnil]
      rw [chunkOverwrite_data_of_key hk]
      simp
    · have hk' : chunkKeyB q i a = false := by
        revert hk; cases chunkKeyB q i a <;> simp
      have hany' : tl.any (chunkKeyB q i) = true := by
        rw [List.any_cons, hk'] at hany
        simpa using hany
      have hfa : chunkKeyB q i (chunkOverwrite q i d a) = false := by
        rw [chunkKeyB_overwrite]; exact hk'
      rw [List.map_cons, List.filter_cons, if_neg (by simp [hfa])]
      exact ih htl hany'

/-- After an upsert there is exactly one row carrying the key, and it holds
the upserted data. -/
theorem upsert_filter {l : List Chunk} (q : Nat) (i : Int) (d : String)
    (t : Nat) (hu : UniqueChunkKeys l) :
    ((upsertChunk l q i d t).filter (chunkKeyB q i)).map
      (fun ch => ch.chunk_data) = [d] := by
  unfold upsertChunk
  split
  · next hany => exact filter_map_overwrite q i d l hu hany
  · next hany =>
    have hanyf : l.any (chunkKeyB q i) = false := by
      revert hany; cases l.any (chunkKeyB q i) <;> simp
    have hnil : l.filter (chunkKeyB q i) = [] := by
      rw [List.filter_eq_nil_iff]
      intro b hb
      rw [List.any_eq_false] at hanyf
      exact hanyf b hb
    have hrow : chunkKeyB q i (⟨q, i, d, t⟩ : Chunk) = true := by
      unfold chunkKeyB; simp
    rw [List.filter_append, hnil, List.filter_cons, if_pos hrow]
    simp

/-- The upsert preserves the `UNIQUE(queue_id, chunk_index)` invariant. -/
theorem upsert_unique {l : List Chunk} (q : Nat) (i : Int) (d : String)
    (t : Nat) (hu : UniqueChunkKeys l) :
    UniqueChunkKeys (upsertChunk l q i d t) := by
  unfold upsertChunk
  split
  · next hany =>
    unfold UniqueChunkKeys at hu ⊢
    refine List.Pairwise.map _ ?_ hu
    intro a b hr
    intro hab
    apply hr
    rw [chunkOverwrite_queue_id, chunkOverwrite_queue_id,
      chunkOverwrite_chunk_index, chunkOverwrite_chunk_index] at hab
    exact hab
  · next hany =>
    have hanyf : l.any (chunkKeyB q i) = false := by
      revert hany; cases l.any (chunkKeyB q i) <;> simp
    unfold UniqueChunkKeys at hu ⊢
    rw [List.pairwise_append]
    refine ⟨hu, by simp, ?_⟩
    intro a ha b hb
    rw [List.mem_singleton] at hb
    subst hb
    rw [List.any_eq_false] at hanyf
    have := hanyf a ha
    unfold chunkKeyB at this
    simp only [decide_eq_true_eq] at this
    intro hab
    exact this ⟨hab.1, hab.2⟩

/-- Re-sending the same `(key, data)` leaves the chunk store unchanged. -/
theorem upsert_twice (l : List Chunk) (q : Nat) (i : Int) (d : String)
    (t t' : Nat) :
    upsertChunk (upsertChunk l q i d t) q i d t' = upsertChunk l q i d t := by
  unfold upsertChunk
  split
  · next hany =>
    have hany2 : (l.map (chunkOverwrite q i d)).any (chunkKeyB q i) = true := by
      rw [List.any_eq_true] at hany ⊢
      obtain ⟨a, ha, hka⟩ := hany
      exact ⟨chunkOverwrite q i d a, List.mem_map_of_mem _ ha,
        by rw [chunkKeyB_overwrite]; exact hka⟩
    rw [if_pos hany2, List.map_map]
    exact List.map_congr_left (fun a _ => chunkOverwrite_idem q i d a)
  · next hany =>
    have hanyf : l.any (chunkKeyB q i) = false := by
      revert hany; cases l.any (chunkKeyB q i) <;> simp
    have hrow : chunkKeyB q i (⟨q, i, d, t⟩ : Chunk) = true := by
      unfold chunkKeyB; simp
    have hany2 : (l ++ [(⟨q, i, d, t⟩ : Chunk)]).any (chunkKeyB q i) = true := by
      simp [List.any_append, hrow]
    rw [if_pos hany2, List.map_append]
    have h1 : l.map (chunkOverwrite q i d) = l := by
      apply map_id_of_fix
      intro a ha
      apply chunkOverwrite_of_not_key
      rw [List.any_eq_false] at hanyf
      have := hanyf a ha
      revert this; cases chunkKeyB q i a <;> simp
    have h2 : chunkOverwrite q i d (⟨q, i, d, t⟩ : Chunk) = ⟨q, i, d, t⟩ := by
      unfold chunkOverwrite
      rw [if_pos hrow]
    rw [h1, List.map_singleton, h2]

/-- Every row after an upsert either carries the upserted key or descends
from a pre-existing row with the same key. -/
theorem upsert_mem_keys {l : List Chunk} {q : Nat} {i : Int} {d : String}
    {t : Nat} {a : Chunk} (h : a ∈ upsertChunk l q i d t) :
    (a.queue_id = q ∧ a.chunk_index = i) ∨
      ∃ b ∈ l, b.queue_id = a.queue_id ∧ b.chunk_index = a.chunk_index := by
  unfold upsertChunk at h
  split at h
  · rw [List.mem_map] at h
    obtain ⟨b, hb, rfl⟩ := h
    exact Or.inr ⟨b, hb, (chunkOverwrite_queue_id q i d b).symm,
      (chunkOverwrite_chunk_index q i d b).symm⟩
  · rw [List.mem_append] at h
    rcases h with h | h
    · exact Or.inr ⟨a, h, rfl, rfl⟩
    · rw [List.mem_singleton] at h
      subst h
      exact Or.inl ⟨rfl, rfl⟩

/-- An upsert stores a row with the given key and data. -/
theorem upsert_mem_new (l : List Chunk) (q : Nat) (i : Int) (d : String)
    (t : Nat) :
    ∃ a ∈ upsertChunk l q i d t,
      a.queue_id = q ∧ a.chunk_index = i ∧ a.chunk_data = d := by
  unfold upsertChunk
  split
  · next hany =>
    rw [List.any_eq_true] at hany
    obtain ⟨b, hb, hkb⟩ := hany
    refine ⟨chunkOverwrite q i d b, List.mem_map_of_mem _ hb, ?_, ?_, ?_⟩
    · rw [chunkOverwrite_queue_id]
      unfold chunkKeyB at hkb
      simp only [decide_eq_true_eq] at hkb
      exact hkb.1
    · rw [chunkOverwrite_chunk_index]
      unfold chunkKeyB at hkb
      simp only [decide_eq_true_eq] at hkb
      exact hkb.2
    · exact chunkOverwrite_data_of_key hkb
  · exact ⟨⟨q, i, d, t⟩,
      List.mem_append_right _ (List.mem_singleton_self _), rfl, rfl, rfl⟩

end TenantSync

namespace TenantSync

/-! ### The state after a successful chunk upload -/

/-- The row transformers of `handleUploadChunk` / `handleUploadComplete`
preserve the `(id, customer_id)` test. -/
theorem entKeyB_tcUpd (q cid q' : Nat) (tc : Int) (e : QueueEntry) :
    entKeyB q cid (tcUpd q' tc e) = entKeyB q cid e := by
  unfold tcUpd; split <;> rfl

/-- `recvUpd` preserves the `(id, customer_id)` test. -/
theorem entKeyB_recvUpd (q cid q' : Nat) (cnt : Int) (e : QueueEntry) :
    entKeyB q cid (recvUpd q' cnt e) = entKeyB q cid e := by
  unfold recvUpd; split <;> rfl

/-- Filtering by a predicate invariant under `f` commutes with mapping `f`. -/
theorem filter_map_comm {α : Type} {f : α → α} {K : α → Bool}
    (hK : ∀ a, K (f a) = K a) (l : List α) :
    (l.map f).filter K = (l.filter K).map f := by
  induction l with
  | nil => rfl
  | cons a t ih =>
    rw [List.map_cons, List.filter_cons, List.filter_cons, hK a]
    by_cases h : K a = true
    · rw [if_pos h, if_pos h, List.map_cons, ih]
    · rw [if_neg h, if_neg h, ih]

/-- Characterization of a successful `handleUploadChunk` call. -/
theorem uploadChunk_success (c : Customer) (st : St) (r : Req) (qid : Nat)
    (idx : Int) (d : String)
    (hm : r.method = "POST") (hq : r.queue_id = some qid)
    (hi : r.chunk_index = some idx) (hd : r.chunk_data = some d)
    (hdne : d ≠ "")
    (he : st.queue.filter (entKeyB qid c.id) ≠ []) :
    (handleUploadChunk c st r).2.chunks =
      upsertChunk st.chunks qid idx d st.time ∧
    (handleUploadChunk c st r).2.queue =
      (if truthyI r.total_chunks ∧ idx = 0 then
        st.queue.map (tcUpd qid (r.total_chunks.getD 0))
      else st.queue).map
        (recvUpd qid
          ((chunksFor (upsertChunk st.chunks qid idx d st.time) qid).length : Int)) ∧
    (handleUploadChunk c st r).2.nextId = st.nextId ∧
    (handleUploadChunk c st r).2.time = st.time ∧
    (handleUploadChunk c st r).1 =
      .chunkOk idx
        ((chunksFor (upsertChunk st.chunks qid idx d st.time) qid).length : Int)
        (if truthyI r.total_chunks then r.total_chunks else none) := by
  unfold handleUploadChunk
  rw [hq, hi, hd, hm]
  rw [if_neg (by decide : ¬("POST" ≠ "POST"))]
  rw [if_neg (by simp [truthyS, hdne] :
    ¬((some qid).isNone = true ∨ (some idx).isNone = true ∨
      ¬truthyS (some d) = true))]
  simp only [Option.getD_some]
  rw [if_neg he]
  by_cases hc : truthyI r.total_chunks = true ∧ idx = 0
  · simp only [if_pos hc]
    and_intros <;> trivial
  · simp only [if_neg hc]
    and_intros <;> trivial

end TenantSync

namespace TenantSync

/-- `recvUpd` is idempotent. -/
theorem recvUpd_idem (q : Nat) (n : Int) (e : QueueEntry) :
    recvUpd q n (recvUpd q n e) = recvUpd q n e := by
  unfold recvUpd
  by_cases h : e.id = q
  · simp [h]
  · simp [h]

/-- The combined total-chunks and chunks-received update is idempotent. -/
theorem recv_tc_idem (q : Nat) (tc0 n : Int) (e : QueueEntry) :
    recvUpd q n (tcUpd q tc0 (recvUpd q n (tcUpd q tc0 e))) =
      recvUpd q n (tcUpd q tc0 e) := by
  unfold recvUpd tcUpd
  by_cases h : e.id = q
  · simp [h]
  · simp [h]

/-- A successful chunk upload keeps the targeted queue entry present. -/
theorem uploadChunk_keeps_filter (c : Customer) (st : St) (r : Req)
    (qid : Nat) (idx : Int) (d : String)
    (hm : r.method = "POST") (hq : r.queue_id = some qid)
    (hi : r.chunk_index = some idx) (hd : r.chunk_data = some d)
    (hdne : d ≠ "")
    (he : st.queue.filter (entKeyB qid c.id) ≠ []) :
    (handleUploadChunk c st r).2.queue.filter (entKeyB qid c.id) ≠ [] := by
  obtain ⟨-, hqu, -, -, -⟩ :=
    uploadChunk_success c st r qid idx d hm hq hi hd hdne he
  rw [hqu, filter_map_comm (fun a => entKeyB_recvUpd qid c.id qid _ a)]
  intro hnil
  rw [List.map_eq_nil_iff] at hnil
  by_cases hc : truthyI r.total_chunks = true ∧ idx = 0
  · rw [if_pos hc,
      filter_map_comm (fun a => entKeyB_tcUpd qid c.id qid _ a)] at hnil
    rw [List.map_eq_nil_iff] at hnil
    exact he hnil
  · rw [if_neg hc] at hnil
    exact he hnil

/-- C3: a chunk upload is an upsert keyed by `(queue_id, chunk_index)`:
after the call exactly one chunk row holds that key, carrying the sent data;
re-sending the identical chunk leaves the chunk store (and the queue) in the
same state; re-sending the index with different data overwrites the stored
data for that index. -/
theorem c3_upsert_idempotent_overwrite (c : Customer) (st : St) (r : Req)
    (qid : Nat) (idx : Int) (d : String)
    (hu : UniqueChunkKeys st.chunks)
    (hm : r.method = "POST") (hq : r.queue_id = some qid)
    (hi : r.chunk_index = some idx) (hd : r.chunk_data = some d)
    (hdne : d ≠ "")
    (he : st.queue.filter (entKeyB qid c.id) ≠ []) :
    (((handleUploadChunk c st r).2.chunks.filter (chunkKeyB qid idx)).map
        (fun ch => ch.chunk_data) = [d]) ∧
    ((handleUploadChunk c ((handleUploadChunk c st r).2) r).2.chunks =
        (handleUploadChunk c st r).2.chunks ∧
      (handleUploadChunk c ((handleUploadChunk c st r).2) r).2.queue =
        (handleUploadChunk c st r).2.queue) ∧
    (∀ d', d' ≠ "" →
      (((handleUploadChunk c ((handleUploadChunk c st r).2)
            { r with chunk_data := some d' }).2.chunks.filter
          (chunkKeyB qid idx)).map (fun ch => ch.chunk_data)) = [d']) := by
  obtain ⟨hch, hqu, hni, hti, hresp⟩ :=
    uploadChunk_success c st r qid idx d hm hq hi hd hdne he
  have he' := uploadChunk_keeps_filter c st r qid idx d hm hq hi hd hdne he
  obtain ⟨hch2, hqu2, -, -, -⟩ :=
    uploadChunk_success c ((handleUploadChunk c st r).2) r qid idx d
      hm hq hi hd hdne he'
  refine ⟨?_, ⟨?_, ?_⟩, ?_⟩
  · rw [hch]
    exact upsert_filter qid idx d st.time hu
  · rw [hch2, hch, hti, upsert_twice]
  · rw [hqu2, hch, hti, upsert_twice, hqu]
    by_cases hc : truthyI r.total_chunks = true ∧ idx = 0
    · simp only [if_pos hc, List.map_map]
      apply List.map_congr_left
      intro e _
      simp only [Function.comp]
      exact recv_tc_idem qid (r.total_chunks.getD 0) _ e
    · simp only [if_neg hc, List.map_map]
      apply List.map_congr_left
      intro e _
      simp only [Function.comp]
      exact recvUpd_idem qid _ e
  · intro d' hdne'
    have hu' : UniqueChunkKeys (handleUploadChunk c st r).2.chunks := by
      rw [hch]
      exact upsert_unique qid idx d st.time hu
    obtain ⟨hch3, -, -, -, -⟩ :=
      uploadChunk_success c ((handleUploadChunk c st r).2)
        { r with chunk_data := some d' } qid idx d' hm hq hi rfl hdne' he'
    rw [hch3]
    exact upsert_filter qid idx d' _ hu'

/-- C3 witness: uploading chunk 1 of entry 2 stores exactly one row for key
`(2, 1)` with the sent data. -/
theorem c3_witness :
    ((handleUploadChunk custW stC3 rChunk1).2.chunks.filter
      (chunkKeyB 2 1)).map (fun ch => ch.chunk_data) = ["x"] := by
  exact (c3_upsert_idempotent_overwrite custW stC3 rChunk1 2 1 "x"
    (by decide) rfl rfl rfl rfl (by decide) (by decide)).1

/-- C8 (amended): the handler accepts any integer `chunk_index`, including
negative ones; after a successful upload-chunk call a row with exactly the
client-supplied key and data is stored, and every stored key either is the
uploaded one or descends from a previously stored row — so the set of stored
indices is exactly the set of client-supplied indices, with no sign
restriction. -/
theorem c8_amended_indices_from_requests (c : Customer) (st : St) (r : Req)
    (qid : Nat) (idx : Int) (d : String)
    (hm : r.method = "POST") (hq : r.queue_id = some qid)
    (hi : r.chunk_index = some idx) (hd : r.chunk_data = some d)
    (hdne : d ≠ "")
    (he : st.queue.filter (entKeyB qid c.id) ≠ []) :
    (∃ ch ∈ (handleUploadChunk c st r).2.chunks,
      ch.queue_id = qid ∧ ch.chunk_index = idx ∧ ch.chunk_data = d) ∧
    (∀ ch ∈ (handleUploadChunk c st r).2.chunks,
      (ch.queue_id = qid ∧ ch.chunk_index = idx) ∨
        ∃ ch0 ∈ st.chunks, ch0.queue_id = ch.queue_id ∧
          ch0.chunk_index = ch.chunk_index) := by
  obtain ⟨hch, -, -, -, -⟩ :=
    uploadChunk_success c st r qid idx d hm hq hi hd hdne he
  rw [hch]
  constructor
  · exact upsert_mem_new st.chunks qid idx d st.time
  · intro ch hmem
    exact upsert_mem_keys hmem

/-- C8 witness: chunk index `-1` is accepted and stored as supplied. -/
theorem c8_witness :
    (∃ ch ∈ (handleUploadChunk custW stC3 rChunkNeg).2.chunks,
      ch.queue_id = 2 ∧ ch.chunk_index = -1 ∧ ch.chunk_data = "d") ∧
    (∀ ch ∈ (handleUploadChunk custW stC3 rChunkNeg).2.chunks,
      (ch.queue_id = 2 ∧ ch.chunk_index = -1) ∨
        ∃ ch0 ∈ stC3.chunks, ch0.queue_id = ch.queue_id ∧
          ch0.chunk_index = ch.chunk_index) := by
  exact c8_amended_indices_from_requests custW stC3 rChunkNeg 2 (-1) "d"
    rfl rfl rfl rfl (by decide) (by decide)

/-- C8 counterexample: as stated the claim is false — the upload-chunk
handler validates only `chunk_index === undefined`, so a request with index
`-1` succeeds and a chunk row with the negative index `-1` is stored. -/
theorem c8_counterexample :
    ((runOps custW stW [Op.upload rUploadPending,
        Op.uploadChunk rChunkNeg]).chunks.map
      (fun ch => (ch.queue_id, ch.chunk_index))) = [(2, -1)] ∧
    (applyOp custW (stepSt custW stW (Op.upload rUploadPending))
        (Op.uploadChunk rChunkNeg)).1 = .chunkOk (-1) 1 none := by
  decide

end TenantSync

namespace TenantSync

/-! ### Status evolution and the inline/chunk exclusivity invariant -/

@[simp] theorem stepSt_queue (c : Customer) (st : St) (op : Op) :
    (stepSt c st op).queue = (applyOp c st op).2.queue := rfl

@[simp] theorem stepSt_chunks (c : Customer) (st : St) (op : Op) :
    (stepSt c st op).chunks = (applyOp c st op).2.chunks := rfl

@[simp] theorem stepSt_nextId (c : Customer) (st : St) (op : Op) :
    (stepSt c st op).nextId = (applyOp c st op).2.nextId := rfl

/-- `tcUpd` preserves the entry id. -/
theorem tcUpd_id (q : Nat) (tc : Int) (e : QueueEntry) :
    (tcUpd q tc e).id = e.id := by
  unfold tcUpd; split <;> rfl

/-- `recvUpd` preserves the entry id. -/
theorem recvUpd_id (q : Nat) (n : Int) (e : QueueEntry) :
    (recvUpd q n e).id = e.id := by
  unfold recvUpd; split <;> rfl

/-- `completeUpd` preserves the entry id. -/
theorem completeUpd_id (q : Nat) (cnt size : Int) (now : Nat) (e : QueueEntry) :
    (completeUpd q cnt size now e).id = e.id := by
  unfold completeUpd; split <;> rfl

/-- `recvUpd` preserves the status. -/
theorem recvUpd_status (q : Nat) (n : Int) (e : QueueEntry) :
    (recvUpd q n e).status = e.status := by
  unfold recvUpd; split <;> rfl

/-- `tcUpd` preserves `package_data`. -/
theorem tcUpd_package_data (q : Nat) (tc : Int) (e : QueueEntry) :
    (tcUpd q tc e).package_data = e.package_data := by
  unfold tcUpd; split <;> rfl

/-- `recvUpd` preserves `package_data`. -/
theorem recvUpd_package_data (q : Nat) (n : Int) (e : QueueEntry) :
    (recvUpd q n e).package_data = e.package_data := by
  unfold recvUpd; split <;> rfl

/-- `completeUpd` preserves `package_data`. -/
theorem completeUpd_package_data (q : Nat) (cnt size : Int) (now : Nat)
    (e : QueueEntry) :
    (completeUpd q cnt size now e).package_data = e.package_data := by
  unfold completeUpd; split <;> rfl

/-- Status ranks do not exceed 2. -/
theorem statusRank_le_two (s : String) : statusRank s ≤ 2 := by
  unfold statusRank
  split_ifs <;> omega

/-- Only `completed` reaches rank 2. -/
theorem statusRank_le_one_of_ne (s : String) (h : s ≠ "completed") :
    statusRank s ≤ 1 := by
  by_cases h1 : s = "pending"
  · simp [statusRank, h1]
  · by_cases h2 : s = "processing"
    · simp [statusRank, h1, h2]
    · simp [statusRank, h1, h2, h]

/-- `handleUpload` either leaves the state unchanged or ran its success
path. -/
theorem upload_state_cases (c : Customer) (st : St) (r : Req) :
    (handleUpload c st r).2 = st ∨
    ∃ spid m, r.method = "POST" ∧ r.sync_pair_id = some spid ∧
      r.manifest = some m ∧
      st.pairs.filter
        (fun p => decide (p.id = spid ∧ p.customer_id = c.id)) ≠ [] := by
  by_cases hm : r.method = "POST"
  · by_cases hval : r.sync_pair_id.isNone = true ∨ r.manifest.isNone = true
    · left
      unfold handleUpload
      rw [if_neg (by simp [hm]), if_pos hval]
    · cases hso : r.sync_pair_id with
      | none => exact absurd (Or.inl (by rw [hso]; rfl)) hval
      | some spid =>
        cases hmo : r.manifest with
        | none => exact absurd (Or.inr (by rw [hmo]; rfl)) hval
        | some m =>
          by_cases hp : st.pairs.filter
              (fun p => decide (p.id = spid ∧ p.customer_id = c.id)) = []
          · left
            unfold handleUpload
            rw [hso, hmo, hm]
            rw [if_neg (by decide : ¬("POST" ≠ "POST"))]
            rw [if_neg (by simp :
              ¬((some spid).isNone = true ∨ (some m).isNone = true))]
            simp only [Option.getD_some]
            rw [if_pos hp]
          · exact Or.inr ⟨spid, m, hm, rfl, rfl, hp⟩
  · left
    unfold handleUpload
    rw [if_pos hm]

/-- Fields of the state after a successful `handleUpload`. -/
theorem upload_success_fields (c : Customer) (st : St) (r : Req)
    (spid : Nat) (m : String)
    (hm : r.method = "POST") (hs : r.sync_pair_id = some spid)
    (hman : r.manifest = some m)
    (hp : st.pairs.filter
      (fun p => decide (p.id = spid ∧ p.customer_id = c.id)) ≠ []) :
    (handleUpload c st r).2.chunks = st.chunks ∧
    (handleUpload c st r).2.nextId = st.nextId + 1 ∧
    ∃ entry : QueueEntry, (handleUpload c st r).2.queue = entry :: st.queue ∧
      entry.id = st.nextId ∧ entry.total_chunks = 0 := by
  unfold handleUpload
  rw [hs, hman, hm]
  rw [if_neg (by decide : ¬("POST" ≠ "POST"))]
  rw [if_neg (by simp : ¬((some spid).isNone = true ∨ (some m).isNone = true))]
  simp only [Option.getD_some]
  rw [if_neg hp]
  refine ⟨by simp, by simp, ?_⟩
  simp only [logAudit_queue, upsertUsage_queue]
  exact ⟨_, rfl, rfl, rfl⟩

/-- `handleUploadChunk` either leaves the state unchanged or ran its success
path. -/
theorem uploadChunk_state_cases (c : Customer) (st : St) (r : Req) :
    (handleUploadChunk c st r).2 = st ∨
    ∃ qid idx d, r.method = "POST" ∧ r.queue_id = some qid ∧
      r.chunk_index = some idx ∧ r.chunk_data = some d ∧ d ≠ "" ∧
      st.queue.filter (entKeyB qid c.id) ≠ [] := by
  by_cases hm : r.method = "POST"
  · by_cases hval : r.queue_id.isNone = true ∨ r.chunk_index.isNone = true ∨
        ¬ truthyS r.chunk_data = true
    · left
      unfold handleUploadChunk
      rw [if_neg (by simp [hm]), if_pos hval]
    · cases hqo : r.queue_id with
      | none => exact absurd (Or.inl (by rw [hqo]; rfl)) hval
      | some qid =>
        cases hio : r.chunk_index with
        | none => exact absurd (Or.inr (Or.inl (by rw [hio]; rfl))) hval
        | some idx =>
          cases hdo : r.chunk_data with
          | none => exact absurd (Or.inr (Or.inr (by rw [hdo]; simp [truthyS]))) hval
          | some d =>
            by_cases hde : d = ""
            · exact absurd (Or.inr (Or.inr (by rw [hdo, hde]; simp [truthyS]))) hval
            · by_cases he0 : st.queue.filter (entKeyB qid c.id) = []
              · left
                unfold handleUploadChunk
                rw [hqo, hio, hdo, hm]
                rw [if_neg (by decide : ¬("POST" ≠ "POST"))]
                rw [if_neg (by simp [truthyS, hde] :
                  ¬((some qid).isNone = true ∨ (some idx).isNone = true ∨
                    ¬truthyS (some d) = true))]
                simp only [Option.getD_some]
                rw [if_pos he0]
              · exact Or.inr ⟨qid, idx, d, hm, rfl, rfl, rfl, hde, he0⟩
  · left
    unfold handleUploadChunk
    rw [if_pos hm]

/-- `handleUploadComplete` either leaves the state unchanged or ran its
success path. -/
theorem uploadComplete_state_cases (c : Customer) (st : St) (r : Req) :
    (handleUploadComplete c st r).2 = st ∨
    ∃ qid, r.method = "POST" ∧ r.queue_id = some qid ∧
      st.queue.filter (entKeyB qid c.id) ≠ [] := by
  by_cases hm : r.method = "POST"
  · cases hqo : r.queue_id with
    | none =>
      left
      unfold handleUploadComplete
      rw [hqo, if_neg (by simp [hm]), if_pos (by rfl)]
    | some qid =>
      by_cases he0 : st.queue.filter (entKeyB qid c.id) = []
      · left
        unfold handleUploadComplete
        rw [hqo, hm]
        rw [if_neg (by decide : ¬("POST" ≠ "POST"))]
        rw [if_neg (by simp : ¬((some qid).isNone = true))]
        simp only [Option.getD_some]
        simp only [he0]
      · exact Or.inr ⟨qid, hm, rfl, he0⟩
  · left
    unfold handleUploadComplete
    rw [if_pos hm]

/-- Fields of the state after a successful `handleUploadComplete`. -/
theorem uploadComplete_state (c : Customer) (st : St) (r : Req) (qid : Nat)
    (hm : r.method = "POST") (hq : r.queue_id = some qid)
    (he : st.queue.filter (entKeyB qid c.id) ≠ []) :
    (handleUploadComplete c st r).2.queue =
      st.queue.map (completeUpd qid ((chunksFor st.chunks qid).length : Int)
        ((chunksFor st.chunks qid).foldl
          (fun a ch => a + (ch.chunk_data.length : Int)) 0) st.time) ∧
    (handleUploadComplete c st r).2.chunks = st.chunks ∧
    (handleUploadComplete c st r).2.nextId = st.nextId := by
  cases hfe : st.queue.filter (entKeyB qid c.id) with
  | nil => exact absurd hfe he
  | cons q0 rest =>
    unfold handleUploadComplete
    rw [hq, hm]
    rw [if_neg (by decide : ¬("POST" ≠ "POST"))]
    rw [if_neg (by simp : ¬((some qid).isNone = true))]
    simp only [Option.getD_some]
    simp only [hfe]
    exact ⟨by simp, by simp, by simp⟩

end TenantSync

namespace TenantSync

/-- On the targeted entry, the chunk-0 total-declaration path sets status
`processing`. -/
theorem recv_tc_status (q : Nat) (tc n : Int) (e : QueueEntry)
    (h : e.id = q) :
    (recvUpd q n (tcUpd q tc e)).status = "processing" := by
  unfold recvUpd tcUpd
  simp [h]

/-- Off the targeted entry, the combined update is the identity. -/
theorem recv_tc_eq_self (q : Nat) (tc n : Int) (e : QueueEntry)
    (h : ¬ e.id = q) :
    recvUpd q n (tcUpd q tc e) = e := by
  unfold recvUpd tcUpd
  simp [h]

/-- On the targeted entry, completion sets status `completed`. -/
theorem completeUpd_status_of_id (q : Nat) (cnt size : Int) (now : Nat)
    (e : QueueEntry) (h : e.id = q) :
    (completeUpd q cnt size now e).status = "completed" := by
  unfold completeUpd
  simp [h]

/-- Off the targeted entry, completion is the identity. -/
theorem completeUpd_of_ne (q : Nat) (cnt size : Int) (now : Nat)
    (e : QueueEntry) (h : ¬ e.id = q) :
    completeUpd q cnt size now e = e := by
  unfold completeUpd
  simp [h]

/-- C5 (amended): across the three package-transfer operations, an entry's
status never moves backwards along `pending` → `processing` → `completed`,
with one exception the code permits: an `upload-chunk` call with
`chunk_index = 0` and a truthy `total_chunks` targeted at the entry resets
its status to `processing`, which demotes a `completed` entry.  In
particular no operation ever returns an entry to `pending`. -/
theorem c5_status_regression_only_via_chunk0 (c : Customer) (st : St)
    (op : Op) :
    ∀ e ∈ st.queue, ∃ e', e' ∈ (stepSt c st op).queue ∧ e'.id = e.id ∧
      (statusRank e'.status < statusRank e.status →
        ∃ r, op = .uploadChunk r ∧ r.queue_id = some e.id ∧
          truthyI r.total_chunks = true ∧ r.chunk_index = some 0 ∧
          e.status = "completed" ∧ e'.status = "processing") := by
  intro e he
  rw [stepSt_queue]
  cases op with
  | upload r =>
    simp only [applyOp]
    rcases upload_state_cases c st r with hsame | ⟨spid, m, hm, hs, hman, hp⟩
    · rw [hsame]
      exact ⟨e, he, rfl, fun hlt => absurd hlt (lt_irrefl _)⟩
    · obtain ⟨-, -, entry, hq, -, -⟩ :=
        upload_success_fields c st r spid m hm hs hman hp
      rw [hq]
      exact ⟨e, List.mem_cons_of_mem _ he, rfl,
        fun hlt => absurd hlt (lt_irrefl _)⟩
  | uploadChunk r =>
    simp only [applyOp]
    rcases uploadChunk_state_cases c st r with
      hsame | ⟨qid, idx, d, hm, hq, hi, hd, hde, he0⟩
    · rw [hsame]
      exact ⟨e, he, rfl, fun hlt => absurd hlt (lt_irrefl _)⟩
    · obtain ⟨-, hqu, -, -, -⟩ :=
        uploadChunk_success c st r qid idx d hm hq hi hd hde he0
      rw [hqu]
      by_cases hc : truthyI r.total_chunks = true ∧ idx = 0
      · simp only [if_pos hc]
        refine ⟨recvUpd qid _ (tcUpd qid (r.total_chunks.getD 0) e),
          List.mem_map_of_mem _ (List.mem_map_of_mem _ he), ?_, ?_⟩
        · rw [recvUpd_id, tcUpd_id]
        · intro hlt
          by_cases hid : e.id = qid
          · rw [recv_tc_status _ _ _ _ hid] at hlt
            have h1 : statusRank "processing" = 1 := by decide
            rw [h1] at hlt
            by_cases hcs : e.status = "completed"
            · refine ⟨r, rfl, ?_, hc.1, ?_, hcs, ?_⟩
              · rw [hid]; exact hq
              · exact hi.trans (by rw [hc.2])
              · exact recv_tc_status _ _ _ _ hid
            · have hle := statusRank_le_one_of_ne e.status hcs
              omega
          · rw [recv_tc_eq_self _ _ _ _ hid] at hlt
            exact absurd hlt (lt_irrefl _)
      · simp only [if_neg hc]
        refine ⟨recvUpd qid _ e, List.mem_map_of_mem _ he,
          recvUpd_id _ _ _, ?_⟩
        intro hlt
        rw [recvUpd_status] at hlt
        exact absurd hlt (lt_irrefl _)
  | uploadComplete r =>
    simp only [applyOp]
    rcases uploadComplete_state_cases c st r with hsame | ⟨qid, hm, hq, he0⟩
    · rw [hsame]
      exact ⟨e, he, rfl, fun hlt => absurd hlt (lt_irrefl _)⟩
    · obtain ⟨hqu, -, -⟩ := uploadComplete_state c st r qid hm hq he0
      rw [hqu]
      refine ⟨completeUpd qid _ _ st.time e, List.mem_map_of_mem _ he,
        completeUpd_id _ _ _ _ _, ?_⟩
      intro hlt
      by_cases hid : e.id = qid
      · rw [completeUpd_status_of_id _ _ _ _ _ hid] at hlt
        have h2 : statusRank "completed" = 2 := by decide
        rw [h2] at hlt
        have := statusRank_le_two e.status
        omega
      · rw [completeUpd_of_ne _ _ _ _ _ hid] at hlt
        exact absurd hlt (lt_irrefl _)

/-- C5 counterexample: the claim as stated is false — an inline upload
completes entry 2, and a subsequent `upload-chunk` with index 0 and a
declared total moves its status from `completed` back to `processing`. -/
theorem c5_counterexample :
    ((runOps custW stW [Op.upload rUploadInline]).queue.map
      (fun e => (e.id, e.status))) = [(2, "completed")] ∧
    ((runOps custW stW [Op.upload rUploadInline,
        Op.uploadChunk rChunk0tc]).queue.map
      (fun e => (e.id, e.status))) = [(2, "processing")] := by
  decide

/-- C5 witness: a plain chunk upload on the pending entry `entPend`. -/
theorem c5_witness :
    ∃ e', e' ∈ (stepSt custW stC3 (Op.uploadChunk rChunk1)).queue ∧
      e'.id = entPend.id ∧
      (statusRank e'.status < statusRank entPend.status →
        ∃ r, Op.uploadChunk rChunk1 = Op.uploadChunk r ∧
          r.queue_id = some entPend.id ∧ truthyI r.total_chunks = true ∧
          r.chunk_index = some 0 ∧ entPend.status = "completed" ∧
          e'.status = "processing") := by
  exact c5_status_regression_only_via_chunk0 custW stC3
    (Op.uploadChunk rChunk1) entPend (by decide)

end TenantSync

namespace TenantSync

/-- Off the targeted entry, `recvUpd` is the identity. -/
theorem recvUpd_eq_self (q : Nat) (n : Int) (e : QueueEntry)
    (h : ¬ e.id = q) : recvUpd q n e = e := by
  unfold recvUpd
  simp [h]

/-- On the targeted entry, completion records the chunk count. -/
theorem completeUpd_total_of_id (q : Nat) (cnt size : Int) (now : Nat)
    (e : QueueEntry) (h : e.id = q) :
    (completeUpd q cnt size now e).total_chunks = cnt := by
  unfold completeUpd
  simp [h]

/-- `InlineClean` states are `InlineChunkExclusive`. -/
theorem exclusive_of_clean (st : St) (hcl : InlineClean st) :
    InlineChunkExclusive st := by
  intro e he _hst habs
  obtain ⟨hpd, hinfo⟩ := habs
  obtain ⟨hnorow, htc⟩ := hcl e he hpd
  cases hinfo with
  | inl h =>
    obtain ⟨ch, hch, hqe⟩ := h
    exact hnorow ch hch hqe
  | inr h => omega

/-- An operation whose handler left the state unchanged preserves both
invariants. -/
theorem inv_of_same (c : Customer) (st : St) (op : Op)
    (hsame : (applyOp c st op).2 = st)
    (hwf : IdsBounded st) (hcl : InlineClean st) :
    IdsBounded (stepSt c st op) ∧ InlineClean (stepSt c st op) := by
  constructor
  · constructor
    · rw [show (stepSt c st op).queue = st.queue by rw [stepSt_queue, hsame],
        show (stepSt c st op).nextId = st.nextId by rw [stepSt_nextId, hsame]]
      exact hwf.1
    · rw [show (stepSt c st op).chunks = st.chunks by rw [stepSt_chunks, hsame],
        show (stepSt c st op).nextId = st.nextId by rw [stepSt_nextId, hsame]]
      exact hwf.2
  · intro e he hpd
    rw [stepSt_queue, hsame] at he
    rw [show (stepSt c st op).chunks = st.chunks by rw [stepSt_chunks, hsame]]
    exact hcl e he hpd

/-- One restricted operation preserves `IdsBounded` and `InlineClean`. -/
theorem step_preserves_inv (c : Customer) (st : St) (op : Op)
    (hwf : IdsBounded st) (hcl : InlineClean st) (hok : avoidsInline st op) :
    IdsBounded (stepSt c st op) ∧ InlineClean (stepSt c st op) := by
  cases op with
  | upload r =>
    rcases upload_state_cases c st r with hsame | ⟨spid, m, hm, hs, hman, hp⟩
    · exact inv_of_same c st _ hsame hwf hcl
    · obtain ⟨hch, hni, entry, hque, hid, htc⟩ :=
        upload_success_fields c st r spid m hm hs hman hp
      have hqe : (stepSt c st (Op.upload r)).queue = entry :: st.queue := by
        rw [stepSt_queue]; exact hque
      have hce : (stepSt c st (Op.upload r)).chunks = st.chunks := by
        rw [stepSt_chunks]; exact hch
      have hne : (stepSt c st (Op.upload r)).nextId = st.nextId + 1 := by
        rw [stepSt_nextId]; exact hni
      constructor
      · constructor
        · intro e he2
          rw [hqe] at he2
          rw [hne]
          rcases List.mem_cons.mp he2 with rfl | hmem
          · rw [hid]; omega
          · have := hwf.1 e hmem; omega
        · intro ch hch2
          rw [hce] at hch2
          rw [hne]
          have := hwf.2 ch hch2; omega
      · intro e he2 hpd
        rw [hqe] at he2
        rw [hce]
        rcases List.mem_cons.mp he2 with rfl | hmem
        · refine ⟨?_, htc⟩
          intro ch hch2 habs
          have hlt := hwf.2 ch hch2
          rw [habs, hid] at hlt
          exact lt_irrefl _ hlt
        · exact hcl e hmem hpd
  | uploadChunk r =>
    rcases uploadChunk_state_cases c st r with
      hsame | ⟨qid, idx, d, hm, hq, hi, hd, hde, he0⟩
    · exact inv_of_same c st _ hsame hwf hcl
    · obtain ⟨hch, hqu, hni, -, -⟩ :=
        uploadChunk_success c st r qid idx d hm hq hi hd hde he0
      have hqe : (stepSt c st (Op.uploadChunk r)).queue =
          (if truthyI r.total_chunks = true ∧ idx = 0 then
            st.queue.map (tcUpd qid (r.total_chunks.getD 0))
          else st.queue).map
            (recvUpd qid
              ((chunksFor (upsertChunk st.chunks qid idx d st.time) qid).length : Int)) := by
        rw [stepSt_queue]; exact hqu
      have hce : (stepSt c st (Op.uploadChunk r)).chunks =
          upsertChunk st.chunks qid idx d st.time := by
        rw [stepSt_chunks]; exact hch
      have hne : (stepSt c st (Op.uploadChunk r)).nextId = st.nextId := by
        rw [stepSt_nextId]; exact hni
      have hqid_lt : qid < st.nextId := by
        obtain ⟨e0, he0m⟩ := List.exists_mem_of_ne_nil _ he0
        rw [List.mem_filter] at he0m
        obtain ⟨he0q, he0k⟩ := he0m
        unfold entKeyB at he0k
        simp only [decide_eq_true_eq] at he0k
        have := hwf.1 e0 he0q
        omega
      -- an entry of the mapped queue descends from an entry of st.queue with
      -- the same id and the same package data
      have hdesc : ∀ e' ∈ (stepSt c st (Op.uploadChunk r)).queue,
          ∃ e ∈ st.queue, e'.id = e.id ∧
            e'.package_data = e.package_data ∧
            (¬ e.id = qid → e' = e) := by
        intro e' he'
        rw [hqe] at he'
        rw [List.mem_map] at he'
        obtain ⟨x, hx, rfl⟩ := he'
        by_cases hcnd : truthyI r.total_chunks = true ∧ idx = 0
        · rw [if_pos hcnd, List.mem_map] at hx
          obtain ⟨y, hy, rfl⟩ := hx
          refine ⟨y, hy, ?_, ?_, ?_⟩
          · rw [recvUpd_id, tcUpd_id]
          · rw [recvUpd_package_data, tcUpd_package_data]
          · intro hny
            exact recv_tc_eq_self _ _ _ _ hny
        · rw [if_neg hcnd] at hx
          refine ⟨x, hx, recvUpd_id _ _ _, recvUpd_package_data _ _ _, ?_⟩
          intro hnx
          exact recvUpd_eq_self _ _ _ hnx
      constructor
      · constructor
        · intro e' he'
          obtain ⟨e, hmem, hide, -, -⟩ := hdesc e' he'
          rw [hne, hide]
          exact hwf.1 e hmem
        · intro ch hch2
          rw [hce] at hch2
          rw [hne]
          rcases upsert_mem_keys hch2 with ⟨hq1, -⟩ | ⟨b, hb, hbq, -⟩
          · rw [hq1]; exact hqid_lt
          · rw [← hbq]; exact hwf.2 b hb
      · intro e' he' hpd
        obtain ⟨e, hmem, hide, hpde, hsame⟩ := hdesc e' he'
        rw [hpde] at hpd
        have hneq : ¬ e.id = qid := by
          intro habs
          have hfalse := hok e hmem (by rw [habs, hq])
          rw [hpd] at hfalse
          cases hfalse
        obtain ⟨hnorow, htc0⟩ := hcl e hmem hpd
        constructor
        · intro ch hch2 habs
          rw [hce] at hch2
          rw [hide] at habs
          rcases upsert_mem_keys hch2 with ⟨hq1, -⟩ | ⟨b, hb, hbq, -⟩
          · rw [habs] at hq1
            exact hneq hq1
          · rw [habs] at hbq
            exact hnorow b hb hbq
        · rw [hsame hneq]
          exact htc0
  | uploadComplete r =>
    rcases uploadComplete_state_cases c st r with hsame | ⟨qid, hm, hq, he0⟩
    · exact inv_of_same c st _ hsame hwf hcl
    · obtain ⟨hqu, hch, hni⟩ := uploadComplete_state c st r qid hm hq he0
      have hqe : (stepSt c st (Op.uploadComplete r)).queue =
          st.queue.map (completeUpd qid
            ((chunksFor st.chunks qid).length : Int)
            ((chunksFor st.chunks qid).foldl
              (fun a ch => a + (ch.chunk_data.length : Int)) 0) st.time) := by
        rw [stepSt_queue]; exact hqu
      have hce : (stepSt c st (Op.uploadComplete r)).chunks = st.chunks := by
        rw [stepSt_chunks]; exact hch
      have hne : (stepSt c st (Op.uploadComplete r)).nextId = st.nextId := by
        rw [stepSt_nextId]; exact hni
      constructor
      · constructor
        · intro e' he'
          rw [hqe, List.mem_map] at he'
          obtain ⟨e, hmem, rfl⟩ := he'
          rw [hne, completeUpd_id]
          exact hwf.1 e hmem
        · intro ch hch2
          rw [hce] at hch2
          rw [hne]
          exact hwf.2 ch hch2
      · intro e' he' hpd
        rw [hqe, List.mem_map] at he'
        obtain ⟨e, hmem, rfl⟩ := he'
        rw [completeUpd_package_data] at hpd
        obtain ⟨hnorow, htc0⟩ := hcl e hmem hpd
        constructor
        · intro ch hch2 habs
          rw [hce] at hch2
          rw [completeUpd_id] at habs
          exact hnorow ch hch2 habs
        · by_cases hid : e.id = qid
          · rw [completeUpd_total_of_id _ _ _ _ _ hid]
            have hnil : chunksFor st.chunks qid = [] := by
              unfold chunksFor
              rw [List.filter_eq_nil_iff]
              intro ch hch2
              simp only [decide_eq_true_eq]
              intro habs
              exact hnorow ch hch2 (by rw [habs, hid])
            rw [hnil]
            rfl
          · rw [completeUpd_of_ne _ _ _ _ _ hid]
            exact htc0

/-- Restricted runs preserve the invariants (induction helper for C1). -/
theorem run_preserves_inv (c : Customer) (ops : List Op) :
    ∀ st : St, IdsBounded st → InlineClean st → OkRun c st ops →
      IdsBounded (runOps c st ops) ∧ InlineClean (runOps c st ops) := by
  induction ops with
  | nil => intro st hwf hcl _; exact ⟨hwf, hcl⟩
  | cons op rest ih =>
    intro st hwf hcl hok
    obtain ⟨hop, hrest⟩ := hok
    obtain ⟨hwf', hcl'⟩ := step_preserves_inv c st op hwf hcl hop
    exact ih (stepSt c st op) hwf' hcl' hrest

/-- C1 (amended): the at-most-one-representation invariant holds for every
completed entry after any sequence of upload, upload-chunk and
upload-complete operations, provided no upload-chunk call targets an entry
carrying inline package data (the code itself does not enforce this
restriction). -/
theorem c1_exclusive_given_no_chunk_to_inline (c : Customer) (st : St)
    (ops : List Op)
    (hwf : IdsBounded st) (hcl : InlineClean st) (hok : OkRun c st ops) :
    InlineChunkExclusive (runOps c st ops) := by
  obtain ⟨-, hcl'⟩ := run_preserves_inv c ops st hwf hcl hok
  exact exclusive_of_clean _ hcl'

/-- C1 counterexample: the claim as stated fails — after an inline upload
(entry 2 `completed` with inline data) a chunk upload at index 1 succeeds,
leaving a completed entry holding both inline data and a stored chunk row. -/
theorem c1_counterexample :
    ((runOps custW stW [Op.upload rUploadInline,
        Op.uploadChunk rChunk1]).queue.map
      (fun e => (e.id, e.status, e.package_data))) =
        [(2, "completed", some "zz")] ∧
    ((runOps custW stW [Op.upload rUploadInline,
        Op.uploadChunk rChunk1]).chunks.map
      (fun ch => (ch.queue_id, ch.chunk_index))) = [(2, 1)] ∧
    ¬ InlineChunkExclusive
        (runOps custW stW [Op.upload rUploadInline, Op.uploadChunk rChunk1]) := by
  decide

/-- C1 witness: an inline upload followed by upload-complete respects the
restriction, and the invariant holds for the reached state. -/
theorem c1_witness :
    InlineChunkExclusive (runOps custW stW
      [Op.upload rUploadInline, Op.uploadComplete rComplete]) := by
  exact c1_exclusive_given_no_chunk_to_inline custW stW
    [Op.upload rUploadInline, Op.uploadComplete rComplete]
    (by decide) (by decide) (by decide)

end TenantSync
